import Mathlib

/-!
Verification of the point-cloud ingestion core of `simple-splat-loader.js`.

Shallow embedding conventions:
* A byte buffer (JS `ArrayBuffer`) is a `List Nat`, one entry per byte.
* The browser decodes the buffer with `TextDecoder('ascii')`, i.e. the
  windows-1252 decoder, which maps every byte to exactly one character.
  The only characters that the parser ever inspects are ASCII literals,
  the line separators, and the regex whitespace class; on windows-1252
  output, the bytes matching JS `\s` are exactly
  {0x09, 0x0A, 0x0B, 0x0C, 0x0D, 0x20, 0xA0}.  We therefore work
  directly on bytes and never build strings.
* Numeric values (JS doubles) are modelled as exact rationals `ℚ`:
  IEEE-754 bit patterns are decoded exactly; the nonfinite patterns
  (infinities / NaN), which no claim touches, are modelled as 0, and
  `parseFloat` of an unparsable token (JS `NaN`) is modelled as 0.
* `Float32Array` stores are modelled without the float32 rounding step
  (exact rationals), and allocation is modelled to fail (RangeError)
  exactly for negative lengths.
* Thrown JS exceptions are modelled with `Except PlyErr`:
  `PlyErr.formatError` for the `new Error(...)` throws of `parsePly`
  (the spec's `FormatError`) and `PlyErr.rangeError` for the RangeErrors
  of typed-array / DataView accesses.
-/

/-- Bytes of an ASCII string literal (used for the parser's keyword tokens). -/
def asciiB (s : String) : List Nat := s.toList.map Char.toNat

/-- The byte values whose windows-1252 decoding matches the JS regex class
`\s` (and is removed by `String.prototype.trim`). -/
def wsByte (b : Nat) : Bool :=
  b = 9 || b = 10 || b = 11 || b = 12 || b = 13 || b = 32 || b = 160

/-- Model of `String.prototype.startsWith`: does `pat` match at the start of `s`? -/
def matchesAt (pat s : List Nat) : Bool := s.take pat.length = pat

/-- Model of `String.prototype.indexOf`: first position where `pat` occurs in `s`. -/
def findSub (pat : List Nat) : List Nat → Option Nat
  | [] => if matchesAt pat [] then some 0 else none
  | c :: t =>
    if matchesAt pat (c :: t) then some 0
    else (findSub pat t).map (· + 1)

/-- Split a byte list on a single separator byte (keeping empty pieces),
like `String.prototype.split` with a one-character separator. -/
def splitOnByte (b : Nat) : List Nat → List (List Nat)
  | [] => [[]]
  | c :: t =>
    if c = b then [] :: splitOnByte b t
    else
      match splitOnByte b t with
      | [] => [[c]]
      | h :: r => (c :: h) :: r

/-- Drop the single `\r` that `/\r?\n/` consumes before a `\n`. -/
def stripCR (l : List Nat) : List Nat :=
  if l.getLast? = some 13 then l.dropLast else l

/-- Model of `text.split` on the line separator regex, at the byte level. -/
def splitLines (s : List Nat) : List (List Nat) :=
  (splitOnByte 10 s).map stripCR

/-- Model of `String.prototype.trim` at the byte level. -/
def trimB (l : List Nat) : List Nat :=
  ((l.dropWhile wsByte).reverse.dropWhile wsByte).reverse

/-- Split into pieces at every whitespace byte (empty pieces kept). -/
def splitWs : List Nat → List (List Nat)
  | [] => [[]]
  | c :: t =>
    if wsByte c then [] :: splitWs t
    else
      match splitWs t with
      | [] => [[c]]
      | h :: r => (c :: h) :: r

/-- Tokenize a line like `line.trim().split` on whitespace runs: the maximal
non-whitespace runs of the line.
(For an all-whitespace line JS returns the singleton `[""]`; we return `[]`.
No keyword ever equals the empty token, and blank data lines are skipped
before tokenizing, so the two are interchangeable for this parser.) -/
def tokenizeB (l : List Nat) : List (List Nat) :=
  (splitWs l).filter (fun t => ¬t.isEmpty)

/-- Is the byte an ASCII decimal digit? -/
def digitB (b : Nat) : Bool := 48 ≤ b && b ≤ 57

/-- Value of a list of ASCII digit bytes. -/
def digitsToNat (l : List Nat) : Nat :=
  l.foldl (fun acc b => acc * 10 + (b - 48)) 0

/-- JS `parseInt(token, 10)`: skip whitespace, optional sign, leading
decimal digits; `none` models `NaN`. -/
def jsParseInt (t : List Nat) : Option Int :=
  let t1 := t.dropWhile wsByte
  let sr : Bool × List Nat :=
    match t1 with
    | 43 :: r => (false, r)
    | 45 :: r => (true, r)
    | r => (false, r)
  let ds := sr.2.takeWhile digitB
  if ds.isEmpty then none
  else if sr.1 then some (-(digitsToNat ds : Int)) else some (digitsToNat ds)

/-- Exponent part of a JS float literal (`e`/`E` already consumed);
an exponent with no digits is ignored (JS parses the longest valid prefix). -/
def parseExpPart (r : List Nat) : Int :=
  let sr : Bool × List Nat :=
    match r with
    | 43 :: s => (false, s)
    | 45 :: s => (true, s)
    | s => (false, s)
  let ds := sr.2.takeWhile digitB
  if ds.isEmpty then 0
  else if sr.1 then -(digitsToNat ds : Int) else (digitsToNat ds : Int)

/-- JS `parseFloat(token)` as an exact rational: sign, integer digits,
optional fraction, optional decimal exponent.  An unparsable token
(JS `NaN`) and the `Infinity` literal are modelled as 0; the rounding of
the decimal literal to binary64 is not modelled (values stay exact). -/
def jsParseFloat (t : List Nat) : ℚ :=
  let t1 := t.dropWhile wsByte
  let sr : ℚ × List Nat :=
    match t1 with
    | 43 :: r => (1, r)
    | 45 :: r => (-1, r)
    | r => (1, r)
  let ip := sr.2.takeWhile digitB
  let t3 := sr.2.drop ip.length
  let fr : List Nat × List Nat :=
    match t3 with
    | 46 :: r => (r.takeWhile digitB, r.drop (r.takeWhile digitB).length)
    | r => ([], r)
  if ip.isEmpty && fr.1.isEmpty then 0
  else
    let mant : ℚ := (digitsToNat ip : ℚ) + (digitsToNat fr.1 : ℚ) / (10 : ℚ) ^ fr.1.length
    let ex : Int :=
      match fr.2 with
      | 101 :: r => parseExpPart r
      | 69 :: r => parseExpPart r
      | _ => 0
    sr.1 * mant * (10 : ℚ) ^ ex

/-- Little-endian assembly of a byte list into an unsigned integer. -/
def assembleLE : List Nat → Nat
  | [] => 0
  | b :: t => b + 256 * assembleLE t

/-- Assemble bytes under the requested byte order. -/
def assembleBits (little : Bool) (bs : List Nat) : Nat :=
  if little then assembleLE bs else assembleLE bs.reverse

/-- Two's-complement reading of a `w`-bit unsigned value. -/
def twosComp (w : Nat) (u : Nat) : Int :=
  if u < 2 ^ (w - 1) then (u : Int) else (u : Int) - 2 ^ w

/-- Exact value of an IEEE-754 binary32 bit pattern; the nonfinite
patterns (exponent 255) are modelled as 0 (no claim involves them). -/
def f32FromBits (bits : Nat) : ℚ :=
  let s : Nat := bits / 2 ^ 31 % 2
  let e : Nat := bits / 2 ^ 23 % 2 ^ 8
  let m : Nat := bits % 2 ^ 23
  let mag : ℚ :=
    if e = 255 then 0
    else if e = 0 then (m : ℚ) * (2 : ℚ) ^ (-149 : Int)
    else ((2 : ℚ) ^ (23 : Nat) + (m : ℚ)) * (2 : ℚ) ^ ((e : Int) - 150)
  if s = 1 then -mag else mag

/-- Exact value of an IEEE-754 binary64 bit pattern; nonfinite patterns
(exponent 2047) are modelled as 0. -/
def f64FromBits (bits : Nat) : ℚ :=
  let s : Nat := bits / 2 ^ 63 % 2
  let e : Nat := bits / 2 ^ 52 % 2 ^ 11
  let m : Nat := bits % 2 ^ 52
  let mag : ℚ :=
    if e = 2047 then 0
    else if e = 0 then (m : ℚ) * (2 : ℚ) ^ (-1074 : Int)
    else ((2 : ℚ) ^ (52 : Nat) + (m : ℚ)) * (2 : ℚ) ^ ((e : Int) - 1075)
  if s = 1 then -mag else mag

/-- Read `n` bytes of `data` starting at `off`; `none` models the RangeError a
`DataView` accessor throws when the read would run past the end. -/
def getBytesAt (data : List Nat) (off n : Nat) : Option (List Nat) :=
  if off + n ≤ data.length then some ((data.drop off).take n) else none

/-- The header schema collected by `parsePly`'s header loop
(`format`, `vertexCount`, `vertexPropertyOrder`, `vertexPropertyTypes`,
`inVertexElement`).  `vcount = none` models a `NaN` vertex count;
a `ptypes` entry of `none` models an `undefined` type token. -/
structure PlyHeader where
  format : Option (List Nat) := none
  vcount : Option Int := some 0
  order : List (List Nat) := []
  ptypes : List (Option (List Nat)) := []
  inVertex : Bool := false
deriving DecidableEq

/-- First index of `a` in `l` (JS `Array.prototype.indexOf`, with `none`
for the JS result `-1`). -/
def idxOfB (a : List Nat) : List (List Nat) → Option Nat
  | [] => none
  | b :: t => if b = a then some 0 else (idxOfB a t).map (· + 1)

/-- One iteration of the header-line loop of `parsePly` (source lines 34-61). -/
def headerStep (st : PlyHeader) (line : List Nat) : PlyHeader :=
  let tokens := tokenizeB line
  match tokens with
  | [] => st
  | t0 :: _ =>
    let st1 := if t0 = asciiB "format" then { st with format := tokens[1]? } else st
    if t0 = asciiB "element" ∧ tokens[1]? = some (asciiB "vertex") then
      { st1 with vcount := tokens[2]?.bind jsParseInt, inVertex := true }
    else
      let st2 := if t0 = asciiB "element" then { st1 with inVertex := false } else st1
      if st2.inVertex ∧ t0 = asciiB "property" then
        { st2 with
          order := st2.order ++ [(tokens.getLast?.getD [])]
          ptypes := st2.ptypes ++ [tokens[1]?] }
      else st2

/-- The `end_header` marker bytes. -/
def endHeaderB : List Nat := asciiB "end_header"

/-- Position of `end_header` within the first 64 KiB of the buffer. -/
def headerEndOf (buf : List Nat) : Option Nat :=
  findSub endHeaderB (buf.take 65536)

/-- Byte length of the header text (`headerEndIndex + 'end_header'.length`). -/
def headerLengthOf (buf : List Nat) : Nat :=
  (headerEndOf buf).getD 0 + endHeaderB.length

/-- The folded header schema of a buffer (meaningful once `end_header` was found). -/
def headerOf (buf : List Nat) : PlyHeader :=
  (splitLines ((buf.take 65536).take (headerLengthOf buf))).foldl headerStep {}

/-- The `dataStart` offset: header length plus the whitespace scan,
i.e. the whitespace bytes following `end_header` (within the 64 KiB clip) are
skipped. -/
def dataStartOf (buf : List Nat) : Nat :=
  headerLengthOf buf +
    (((buf.take 65536).drop (headerLengthOf buf)).takeWhile wsByte).length

/-- The data section of the buffer (everything from `dataStart` on). -/
def dataOf (buf : List Nat) : List Nat := buf.drop (dataStartOf buf)

/-- Index of the `x` property in the declared order. -/
def xIndexOf (buf : List Nat) : Option Nat := idxOfB (asciiB "x") (headerOf buf).order

/-- Index of the `y` property. -/
def yIndexOf (buf : List Nat) : Option Nat := idxOfB (asciiB "y") (headerOf buf).order

/-- Index of the `z` property. -/
def zIndexOf (buf : List Nat) : Option Nat := idxOfB (asciiB "z") (headerOf buf).order

/-- Red-channel property index: `red` preferred, else `r` (source lines 82-84). -/
def rIndexOf (buf : List Nat) : Option Nat :=
  match idxOfB (asciiB "red") (headerOf buf).order with
  | some i => some i
  | none => idxOfB (asciiB "r") (headerOf buf).order

/-- Green-channel property index: `green` preferred, else `g`. -/
def gIndexOf (buf : List Nat) : Option Nat :=
  match idxOfB (asciiB "green") (headerOf buf).order with
  | some i => some i
  | none => idxOfB (asciiB "g") (headerOf buf).order

/-- Blue-channel property index: `blue` preferred, else `b`. -/
def bIndexOf (buf : List Nat) : Option Nat :=
  match idxOfB (asciiB "blue") (headerOf buf).order with
  | some i => some i
  | none => idxOfB (asciiB "b") (headerOf buf).order

/-- The `hasColor` flag: all three channel indices resolved. -/
def hasColorOf (buf : List Nat) : Bool :=
  (rIndexOf buf).isSome && (gIndexOf buf).isSome && (bIndexOf buf).isSome

/-- Declared vertex count as a natural number (meaningful when positive). -/
def countOf (buf : List Nat) : Nat := ((headerOf buf).vcount.getD 0).toNat

/-- The `propertySize` helper of `parsePly` (source lines 171-196): byte width of a
scalar type token, defaulting to 4; `none` is an `undefined` type token,
which also hits the default case. -/
def propertySize (ty : Option (List Nat)) : Nat :=
  if ty = some (asciiB "float") ∨ ty = some (asciiB "float32") ∨
     ty = some (asciiB "int") ∨ ty = some (asciiB "int32") ∨
     ty = some (asciiB "uint") ∨ ty = some (asciiB "uint32") then 4
  else if ty = some (asciiB "double") ∨ ty = some (asciiB "float64") then 8
  else if ty = some (asciiB "short") ∨ ty = some (asciiB "int16") ∨
          ty = some (asciiB "ushort") ∨ ty = some (asciiB "uint16") then 2
  else if ty = some (asciiB "char") ∨ ty = some (asciiB "int8") ∨
          ty = some (asciiB "uchar") ∨ ty = some (asciiB "uint8") then 1
  else 4

/-- The `readProperty` helper of `parsePly` (source lines 139-169): decode one scalar
field of `data` at byte offset `off` under the given byte order; `none`
models the DataView RangeError on an out-of-bounds read.  Unrecognized
types (including an `undefined` type token) are decoded as float32. -/
def readProperty (data : List Nat) (little : Bool) (ty : Option (List Nat)) (off : Nat) :
    Option ℚ :=
  if ty = some (asciiB "float") ∨ ty = some (asciiB "float32") then
    (getBytesAt data off 4).map (fun bs => f32FromBits (assembleBits little bs))
  else if ty = some (asciiB "double") ∨ ty = some (asciiB "float64") then
    (getBytesAt data off 8).map (fun bs => f64FromBits (assembleBits little bs))
  else if ty = some (asciiB "uchar") ∨ ty = some (asciiB "uint8") then
    (getBytesAt data off 1).map (fun bs => ((bs.headD 0 : Nat) : ℚ))
  else if ty = some (asciiB "char") ∨ ty = some (asciiB "int8") then
    (getBytesAt data off 1).map (fun bs => ((twosComp 8 (bs.headD 0) : Int) : ℚ))
  else if ty = some (asciiB "ushort") ∨ ty = some (asciiB "uint16") then
    (getBytesAt data off 2).map (fun bs => ((assembleBits little bs : Nat) : ℚ))
  else if ty = some (asciiB "short") ∨ ty = some (asciiB "int16") then
    (getBytesAt data off 2).map (fun bs => ((twosComp 16 (assembleBits little bs) : Int) : ℚ))
  else if ty = some (asciiB "uint") ∨ ty = some (asciiB "uint32") then
    (getBytesAt data off 4).map (fun bs => ((assembleBits little bs : Nat) : ℚ))
  else if ty = some (asciiB "int") ∨ ty = some (asciiB "int32") then
    (getBytesAt data off 4).map (fun bs => ((twosComp 32 (assembleBits little bs) : Int) : ℚ))
  else
    (getBytesAt data off 4).map (fun bs => f32FromBits (assembleBits little bs))

/-- The `(name, type)` pairs of the declared vertex properties. -/
def propsOf (buf : List Nat) : List (List Nat × Option (List Nat)) :=
  (headerOf buf).order.zip (headerOf buf).ptypes

/-- The `bytesPerVertex` stride: sum of the declared property widths. -/
def strideOf (buf : List Nat) : Nat :=
  ((headerOf buf).ptypes.map propertySize).sum

/-- The inner property walk of the binary loop (source lines 212-227):
starting from the accumulated `(x,y,z)` and `(r,g,b)`, decode each declared
property at its running offset and overwrite the matching accumulator.
`none` propagates an out-of-bounds read. -/
def binVertex (data : List Nat) (little hasColor : Bool) :
    List (List Nat × Option (List Nat)) → Nat → (ℚ × ℚ × ℚ) → (ℚ × ℚ × ℚ) →
    Option ((ℚ × ℚ × ℚ) × (ℚ × ℚ × ℚ))
  | [], _, xyz, rgb => some (xyz, rgb)
  | (name, ty) :: rest, off, (x, y, z), (r, g, b) =>
    match readProperty data little ty off with
    | none => none
    | some value =>
      let x1 := if name = asciiB "x" then value else x
      let y1 := if name = asciiB "y" then value else y
      let z1 := if name = asciiB "z" then value else z
      let r1 := if hasColor ∧ (name = asciiB "red" ∨ name = asciiB "r") then value / 255 else r
      let g1 := if hasColor ∧ (name = asciiB "green" ∨ name = asciiB "g") then value / 255 else g
      let b1 := if hasColor ∧ (name = asciiB "blue" ∨ name = asciiB "b") then value / 255 else b
      binVertex data little hasColor rest (off + propertySize ty) (x1, y1, z1) (r1, g1, b1)

/-- Store a decoded triple at the three consecutive slots of point `v`
(`positions[3*v+0..2] = ...` in the source). -/
def setTriple (l : List ℚ) (v : Nat) (a b c : ℚ) : List ℚ :=
  ((l.set (3 * v) a).set (3 * v + 1) b).set (3 * v + 2) c

/-- The outer binary vertex loop (source lines 207-238): vertex `v` is read
at offset `v * stride`, each vertex starting from `(0,0,0)` and `(1,1,1)`,
and its triples are stored at slots `3v..3v+2`. -/
def binLoop (data : List Nat) (little hasColor : Bool)
    (props : List (List Nat × Option (List Nat))) (stride : Nat) :
    Nat → Nat → List ℚ → List ℚ → Option (List ℚ × List ℚ)
  | _, 0, pos, col => some (pos, col)
  | v, Nat.succ n, pos, col =>
    match binVertex data little hasColor props (v * stride) (0, 0, 0) (1, 1, 1) with
    | none => none
    | some ((x, y, z), (r, g, b)) =>
      binLoop data little hasColor props stride (v + 1) n
        (setTriple pos v x y z) (setTriple col v r g b)

/-- The ASCII data loop of `parsePly` (source lines 108-136): blank lines
and lines with fewer tokens than declared properties are skipped without
consuming a slot; the loop stops once `count` vertices are filled. -/
def asciiLoop (pc xI yI zI rI gI bI : Nat) (hasColor : Bool) (count : Nat) :
    List (List Nat) → Nat → List ℚ → List ℚ → List ℚ × List ℚ
  | [], _, pos, col => (pos, col)
  | line :: ls, v, pos, col =>
    if trimB line = [] then asciiLoop pc xI yI zI rI gI bI hasColor count ls v pos col
    else
      let tokens := tokenizeB line
      if tokens.length < pc then asciiLoop pc xI yI zI rI gI bI hasColor count ls v pos col
      else if count ≤ v then (pos, col)
      else
        let pos1 := setTriple pos v
          (jsParseFloat (tokens.getD xI [])) (jsParseFloat (tokens.getD yI []))
          (jsParseFloat (tokens.getD zI []))
        let col1 :=
          if hasColor then
            setTriple col v (jsParseFloat (tokens.getD rI []) / 255)
              (jsParseFloat (tokens.getD gI []) / 255)
              (jsParseFloat (tokens.getD bI []) / 255)
          else setTriple col v 1 1 1
        asciiLoop pc xI yI zI rI gI bI hasColor count ls (v + 1) pos1 col1

/-- The decoded point set: `count`, flat `positions` and flat `colors`
(`Float32Array(vertexCount * 3)` each, modelled as rational lists). -/
structure PointSet where
  count : Nat
  positions : List ℚ
  colors : List ℚ
deriving DecidableEq

/-- Failure modes of the loader: `formatError` models the `new Error(...)`
throws of `parsePly` (the spec's `FormatError`); `rangeError` models the
RangeErrors of typed-array allocation / construction and DataView reads. -/
inductive PlyErr where
  | formatError (msg : String)
  | rangeError
deriving DecidableEq

deriving instance DecidableEq for Except

/-- The `parsePly` function (source lines 17-244). -/
def parsePly (buf : List Nat) : Except PlyErr PointSet :=
  match headerEndOf buf with
  | none => .error (.formatError "PLY header does not contain end_header.")
  | some _ =>
    let st := headerOf buf
    match st.format with
    | none => .error (.formatError "PLY format not specified in header.")
    | some fmt =>
      if st.vcount = none ∨ st.vcount = some 0 then
        .error (.formatError "PLY vertex element not found or vertex count is 0.")
      else if xIndexOf buf = none ∨ yIndexOf buf = none ∨ zIndexOf buf = none then
        .error (.formatError "PLY vertex does not contain xyz properties.")
      else if (st.vcount.getD 0) < 0 then
        -- new Float32Array(vertexCount * 3) with a negative length throws a RangeError
        .error .rangeError
      else
        let count := (st.vcount.getD 0).toNat
        let pos0 : List ℚ := List.replicate (count * 3) 0
        let col0 : List ℚ := List.replicate (count * 3) 0
        if fmt = asciiB "ascii" then
          let res := asciiLoop (headerOf buf).order.length
            ((xIndexOf buf).getD 0) ((yIndexOf buf).getD 0) ((zIndexOf buf).getD 0)
            ((rIndexOf buf).getD 0) ((gIndexOf buf).getD 0) ((bIndexOf buf).getD 0)
            (hasColorOf buf) count (splitLines (dataOf buf)) 0 pos0 col0
          .ok ⟨count, res.1, res.2⟩
        else if fmt = asciiB "binary_little_endian" ∨ fmt = asciiB "binary_big_endian" then
          match binLoop (dataOf buf) (decide (fmt = asciiB "binary_little_endian"))
              (hasColorOf buf) (propsOf buf) (strideOf buf) 0 count pos0 col0 with
          | none => .error .rangeError
          | some res => .ok ⟨count, res.1, res.2⟩
        else .error (.formatError "Unsupported PLY format.")

/-- The `isPlyBuffer` sniffer (source lines 6-9): does the buffer (clipped to 1024
bytes) start with the marker `ply`? -/
def isPlyBuffer (buf : List Nat) : Bool :=
  matchesAt (asciiB "ply") (buf.take 1024)

/-- Group the buffer into 4-byte chunks (the elements of `new Float32Array(buffer)`). -/
def chunk4 : List Nat → List (List Nat)
  | a :: b :: c :: d :: t => [a, b, c, d] :: chunk4 t
  | _ => []

/-- The float values of a raw buffer (`new Float32Array(buffer)`; typed
arrays use the platform byte order, little-endian here). -/
def rawFloats (buf : List Nat) : List ℚ :=
  (chunk4 buf).map (fun bs => f32FromBits (assembleLE bs))

/-- The raw fill loop (source lines 284-292); `floats.getD _ 0` never falls
back to the default because every index read is below `6 * count`. -/
def rawLoop (floats : List ℚ) : Nat → Nat → List ℚ → List ℚ → List ℚ × List ℚ
  | _, 0, pos, col => (pos, col)
  | i, Nat.succ n, pos, col =>
    rawLoop floats (i + 1) n
      (setTriple pos i (floats.getD (6 * i) 0) (floats.getD (6 * i + 1) 0)
        (floats.getD (6 * i + 2) 0))
      (setTriple col i (floats.getD (6 * i + 3) 0) (floats.getD (6 * i + 4) 0)
        (floats.getD (6 * i + 5) 0))

/-- The `loadSimpleSplatFromArrayBuffer` facade (source lines 255-304), up to the
rendering-library wrapping: the returned `THREE.Points` is modelled by the
`PointSet` it carries, and the `null` return by `none`.  `new
Float32Array(buffer)` throws a RangeError when the byte length is not a
multiple of 4; a non-multiple-of-6 float count only produces a console
warning (not modelled). -/
def loadSimpleSplatFromArrayBuffer (buf : List Nat) : Except PlyErr (Option PointSet) :=
  if isPlyBuffer buf then (parsePly buf).map (fun ps => some ps)
  else if buf.length % 4 ≠ 0 then .error .rangeError
  else
    let floats := rawFloats buf
    let count := floats.length / 6
    if count = 0 then .ok none
    else
      let res := rawLoop floats 0 count (List.replicate (count * 3) 0) (List.replicate (count * 3) 0)
      .ok (some ⟨count, res.1, res.2⟩)

/-! ### Derived observers used to state the claims -/

/-- A qualifying ASCII data line: non-blank with at least as many tokens as
declared properties — exactly the lines of the ASCII loop that consume a
vertex slot. -/
def qualLine (pc : Nat) (line : List Nat) : Bool :=
  !(trimB line).isEmpty && decide (pc ≤ (tokenizeB line).length)

/-- Reference form of the ASCII data loop: process the token lists of the
qualifying lines in order (`asciiLoop` is proved equal to this). -/
def fillRows (xI yI zI rI gI bI : Nat) (hasColor : Bool) (count : Nat) :
    List (List (List Nat)) → Nat → List ℚ → List ℚ → List ℚ × List ℚ
  | [], _, pos, col => (pos, col)
  | tokens :: rows, v, pos, col =>
    if count ≤ v then (pos, col)
    else
      fillRows xI yI zI rI gI bI hasColor count rows (v + 1)
        (setTriple pos v (jsParseFloat (tokens.getD xI []))
          (jsParseFloat (tokens.getD yI [])) (jsParseFloat (tokens.getD zI [])))
        (if hasColor then
          setTriple col v (jsParseFloat (tokens.getD rI []) / 255)
            (jsParseFloat (tokens.getD gI []) / 255)
            (jsParseFloat (tokens.getD bI []) / 255)
        else setTriple col v 1 1 1)

/-- Token lists of the qualifying data lines of an ASCII-mode buffer. -/
def rowsOf (buf : List Nat) : List (List (List Nat)) :=
  ((splitLines (dataOf buf)).filter (qualLine (headerOf buf).order.length)).map tokenizeB

/-- Number of vertex slots actually filled by the ASCII loop. -/
def filledOf (buf : List Nat) : Nat := min (countOf buf) (rowsOf buf).length

/-- Number of points whose record is actually decoded: every point in
binary mode, only the filled ones in ASCII mode. -/
def decodedCountOf (buf : List Nat) : Nat :=
  if (headerOf buf).format = some (asciiB "ascii") then filledOf buf else countOf buf

/-- Does the decode call fail with one of the `parsePly` FormatErrors
(as opposed to succeeding or raising a RangeError)? -/
def isFormatError : Except PlyErr PointSet → Bool
  | .error (.formatError _) => true
  | _ => false

/-! ### Concrete buffers used by the counterexamples and witnesses -/

/-- The header of the spec's concrete binary scenario (claim C1). -/
def c1Header : List Nat :=
  asciiB "ply\nformat binary_little_endian 1.0\nelement vertex 2\nproperty float x\nproperty float y\nproperty float z\nproperty uchar red\nproperty uchar green\nproperty uchar blue\nend_header\n"

/-- Two 15-byte records that are all `0x20` (space) bytes: legitimate float
and color bytes, but the data-offset scan swallows them as header padding. -/
def c1BadBuf : List Nat := c1Header ++ List.replicate 30 32

/-- A found header with an unsupported format token and a negative vertex
count: the typed-array allocation fails before the format dispatch. -/
def c4BadBuf : List Nat :=
  asciiB "ply\nformat weird 1.0\nelement vertex -1\nproperty float x\nproperty float y\nproperty float z\nend_header\n"

/-- Binary buffer declaring `red green blue` and then also `r`: the later
`r` property overwrites the red channel in the binary loop. -/
def c5BadBuf : List Nat :=
  asciiB "ply\nformat binary_little_endian 1.0\nelement vertex 1\nproperty float x\nproperty float y\nproperty float z\nproperty uchar red\nproperty uchar green\nproperty uchar blue\nproperty uchar r\nend_header\n" ++
  [0, 0, 128, 63, 0, 0, 0, 64, 0, 0, 64, 64, 10, 20, 30, 40]

/-- Binary buffer with the mixed-convention color triple `red g blue`:
no complete triple by either single naming convention, yet color decoding
is triggered. -/
def c6BadBuf : List Nat :=
  asciiB "ply\nformat binary_little_endian 1.0\nelement vertex 1\nproperty float x\nproperty float y\nproperty float z\nproperty uchar red\nproperty uchar g\nproperty uchar blue\nend_header\n" ++
  [0, 0, 128, 63, 0, 0, 0, 64, 0, 0, 64, 64, 0, 20, 30]

/-- Binary one-vertex buffer with positions only (no color properties). -/
def c6WitBuf : List Nat :=
  asciiB "ply\nformat binary_little_endian 1.0\nelement vertex 1\nproperty float x\nproperty float y\nproperty float z\nend_header\n" ++
  [0, 0, 128, 63, 0, 0, 0, 64, 0, 0, 64, 64]

/-- ASCII buffer with two declared vertices and colors. -/
def c2WitBuf : List Nat :=
  asciiB "ply\nformat ascii 1.0\nelement vertex 2\nproperty float x\nproperty float y\nproperty float z\nproperty uchar red\nproperty uchar green\nproperty uchar blue\nend_header\n1 2 3 10 20 30\n4 5 6 40 50 60\n"

/-- ASCII buffer declaring both `red green blue` and `r g b`. -/
def c5WitBuf : List Nat :=
  asciiB "ply\nformat ascii 1.0\nelement vertex 1\nproperty float x\nproperty float y\nproperty float z\nproperty uchar red\nproperty uchar green\nproperty uchar blue\nproperty uchar r\nproperty uchar g\nproperty uchar b\nend_header\n1 2 3 10 20 30 40 50 60\n"

/-- ASCII buffer declaring two vertices but providing only one data line. -/
def c10WitBuf : List Nat :=
  asciiB "ply\nformat ascii 1.0\nelement vertex 2\nproperty float x\nproperty float y\nproperty float z\nend_header\n1 2 3\n"

/-- A found header with no format line. -/
def c4WitBuf : List Nat :=
  asciiB "ply\nelement vertex 1\nproperty float x\nproperty float y\nproperty float z\nend_header\n"

/-- A raw buffer of 7 floats: one complete xyzrgb group plus one trailing float. -/
def c7WitBuf : List Nat :=
  [0, 0, 128, 63, 0, 0, 0, 64, 0, 0, 64, 64, 0, 0, 128, 64, 0, 0, 160, 64, 0, 0, 192, 64, 1, 2, 3, 4]

/-! ### Lemmas about the slot-filling primitives -/

theorem length_setTriple (l : List ℚ) (v : Nat) (a b c : ℚ) :
    (setTriple l v a b c).length = l.length := by
  simp [setTriple]

theorem getElem?_setTriple_lt {j : Nat} (l : List ℚ) {v : Nat} (a b c : ℚ)
    (h : j < 3 * v) : (setTriple l v a b c)[j]? = l[j]? := by
  unfold setTriple
  rw [List.getElem?_set_ne (by omega), List.getElem?_set_ne (by omega),
    List.getElem?_set_ne (by omega)]

theorem getElem?_setTriple_ge {j : Nat} (l : List ℚ) {v : Nat} (a b c : ℚ)
    (h : 3 * v + 3 ≤ j) : (setTriple l v a b c)[j]? = l[j]? := by
  unfold setTriple
  rw [List.getElem?_set_ne (by omega), List.getElem?_set_ne (by omega),
    List.getElem?_set_ne (by omega)]

theorem getElem?_setTriple_self {l : List ℚ} {v : Nat} (a b c : ℚ)
    (h : 3 * v + 2 < l.length) :
    (setTriple l v a b c)[3 * v]? = some a ∧
    (setTriple l v a b c)[3 * v + 1]? = some b ∧
    (setTriple l v a b c)[3 * v + 2]? = some c := by
  unfold setTriple
  refine ⟨?_, ?_, ?_⟩
  · rw [List.getElem?_set_ne (by omega), List.getElem?_set_ne (by omega),
      List.getElem?_set_self (by omega)]
  · rw [List.getElem?_set_ne (by omega),
      List.getElem?_set_self (by simp only [List.length_set]; omega)]
  · rw [List.getElem?_set_self (by simp only [List.length_set]; omega)]

theorem binVertex_noColor (data : List Nat) (little : Bool) :
    ∀ (props : List (List Nat × Option (List Nat))) (off : Nat)
      (xyz rgb : ℚ × ℚ × ℚ) (res : (ℚ × ℚ × ℚ) × (ℚ × ℚ × ℚ)),
      binVertex data little false props off xyz rgb = some res → res.2 = rgb := by
  intro props
  induction props with
  | nil =>
    intro off xyz rgb res h
    obtain ⟨x, y, z⟩ := xyz
    obtain ⟨r, g, b⟩ := rgb
    simp only [binVertex, Option.some.injEq] at h
    rw [← h]
  | cons p rest ih =>
    intro off xyz rgb res h
    obtain ⟨name, ty⟩ := p
    obtain ⟨x, y, z⟩ := xyz
    obtain ⟨r, g, b⟩ := rgb
    unfold binVertex at h
    cases hr : readProperty data little ty off with
    | none => rw [hr] at h; exact absurd h (by simp)
    | some value =>
      rw [hr] at h
      simp only [Bool.false_eq_true, false_and, if_false] at h
      exact ih _ _ _ _ h

theorem binLoop_length (data : List Nat) (little hasColor : Bool)
    (props : List (List Nat × Option (List Nat))) (stride : Nat) :
    ∀ (n v : Nat) (pos col p q : List ℚ),
      binLoop data little hasColor props stride v n pos col = some (p, q) →
      p.length = pos.length ∧ q.length = col.length := by
  intro n
  induction n with
  | zero =>
    intro v pos col p q h
    simp only [binLoop, Option.some.injEq, Prod.mk.injEq] at h
    rw [← h.1, ← h.2]
    exact ⟨rfl, rfl⟩
  | succ n ih =>
    intro v pos col p q h
    unfold binLoop at h
    cases hv : binVertex data little hasColor props (v * stride) (0, 0, 0) (1, 1, 1) with
    | none => rw [hv] at h; exact absurd h (by simp)
    | some res =>
      rw [hv] at h
      obtain ⟨⟨x, y, z⟩, ⟨r, g, b⟩⟩ := res
      have := ih (v + 1) _ _ _ _ h
      rw [length_setTriple, length_setTriple] at this
      exact this

theorem binLoop_frame (data : List Nat) (little hasColor : Bool)
    (props : List (List Nat × Option (List Nat))) (stride : Nat) :
    ∀ (n v : Nat) (pos col p q : List ℚ),
      binLoop data little hasColor props stride v n pos col = some (p, q) →
      ∀ j, j < 3 * v → p[j]? = pos[j]? ∧ q[j]? = col[j]? := by
  intro n
  induction n with
  | zero =>
    intro v pos col p q h j hj
    simp only [binLoop, Option.some.injEq, Prod.mk.injEq] at h
    rw [← h.1, ← h.2]
    exact ⟨rfl, rfl⟩
  | succ n ih =>
    intro v pos col p q h j hj
    unfold binLoop at h
    cases hv : binVertex data little hasColor props (v * stride) (0, 0, 0) (1, 1, 1) with
    | none => rw [hv] at h; exact absurd h (by simp)
    | some res =>
      rw [hv] at h
      obtain ⟨⟨x, y, z⟩, ⟨r, g, b⟩⟩ := res
      have hrec := ih (v + 1) _ _ _ _ h j (by omega)
      rw [getElem?_setTriple_lt _ _ _ _ hj, getElem?_setTriple_lt _ _ _ _ hj] at hrec
      exact hrec

theorem binLoop_spec (data : List Nat) (little hasColor : Bool)
    (props : List (List Nat × Option (List Nat))) (stride : Nat) :
    ∀ (n v : Nat) (pos col p q : List ℚ),
      binLoop data little hasColor props stride v n pos col = some (p, q) →
      3 * (v + n) ≤ pos.length → pos.length = col.length →
      ∀ t, t < n →
        ∃ x y z r g b,
          binVertex data little hasColor props ((v + t) * stride) (0, 0, 0) (1, 1, 1) =
            some ((x, y, z), (r, g, b)) ∧
          p[3 * (v + t)]? = some x ∧ p[3 * (v + t) + 1]? = some y ∧
          p[3 * (v + t) + 2]? = some z ∧
          q[3 * (v + t)]? = some r ∧ q[3 * (v + t) + 1]? = some g ∧
          q[3 * (v + t) + 2]? = some b := by
  intro n
  induction n with
  | zero => intro v pos col p q h hlen heq t ht; omega
  | succ n ih =>
    intro v pos col p q h hlen heq t ht
    unfold binLoop at h
    cases hv : binVertex data little hasColor props (v * stride) (0, 0, 0) (1, 1, 1) with
    | none => rw [hv] at h; exact absurd h (by simp)
    | some res =>
      rw [hv] at h
      obtain ⟨⟨x, y, z⟩, ⟨r, g, b⟩⟩ := res
      cases t with
      | zero =>
        refine ⟨x, y, z, r, g, b, by simpa using hv, ?_⟩
        have hfr := binLoop_frame data little hasColor props stride n (v + 1) _ _ _ _ h
        have hp0 := (hfr (3 * v) (by omega)).1
        have hp1 := (hfr (3 * v + 1) (by omega)).1
        have hp2 := (hfr (3 * v + 2) (by omega)).1
        have hc0 := (hfr (3 * v) (by omega)).2
        have hc1 := (hfr (3 * v + 1) (by omega)).2
        have hc2 := (hfr (3 * v + 2) (by omega)).2
        have hps := getElem?_setTriple_self x y z (l := pos) (v := v) (by omega)
        have hcs := getElem?_setTriple_self r g b (l := col) (v := v) (by omega)
        simp only [Nat.add_zero]
        rw [hp0, hp1, hp2, hc0, hc1, hc2]
        exact ⟨hps.1, hps.2.1, hps.2.2, hcs.1, hcs.2.1, hcs.2.2⟩
      | succ t =>
        have := ih (v + 1) _ _ _ _ h
          (by rw [length_setTriple]; omega)
          (by rw [length_setTriple, length_setTriple]; omega)
          t (by omega)
        have hvt : v + 1 + t = v + (t + 1) := by omega
        rw [hvt] at this
        exact this

theorem asciiLoop_eq_fillRows (pc xI yI zI rI gI bI : Nat) (hasColor : Bool) (count : Nat) :
    ∀ (ls : List (List Nat)) (v : Nat) (pos col : List ℚ),
      asciiLoop pc xI yI zI rI gI bI hasColor count ls v pos col =
        fillRows xI yI zI rI gI bI hasColor count
          ((ls.filter (qualLine pc)).map tokenizeB) v pos col := by
  intro ls
  induction ls with
  | nil => intro v pos col; simp [asciiLoop, fillRows]
  | cons line ls ih =>
    intro v pos col
    by_cases hb : trimB line = []
    · have hq : qualLine pc line = false := by simp [qualLine, hb]
      unfold asciiLoop
      rw [if_pos hb, List.filter_cons_of_neg (by simp [hq]), ih]
    · by_cases ht : (tokenizeB line).length < pc
      · have hq : qualLine pc line = false := by
          simp only [qualLine, Bool.and_eq_false_iff, decide_eq_false_iff_not]
          right; omega
        unfold asciiLoop
        rw [if_neg hb, if_pos ht, List.filter_cons_of_neg (by simp [hq]), ih]
      · have hq : qualLine pc line = true := by
          simp only [qualLine, Bool.and_eq_true, Bool.not_eq_true', decide_eq_true_eq,
            List.isEmpty_eq_false]
          exact ⟨hb, by omega⟩
        rw [List.filter_cons_of_pos hq, List.map_cons]
        unfold asciiLoop fillRows
        rw [if_neg hb, if_neg ht]
        by_cases hcv : count ≤ v
        · rw [if_pos hcv, if_pos hcv]
        · rw [if_neg hcv, if_neg hcv, ih]

theorem fillRows_length (xI yI zI rI gI bI : Nat) (hasColor : Bool) (count : Nat) :
    ∀ (rows : List (List (List Nat))) (v : Nat) (pos col : List ℚ),
      (fillRows xI yI zI rI gI bI hasColor count rows v pos col).1.length = pos.length ∧
      (fillRows xI yI zI rI gI bI hasColor count rows v pos col).2.length = col.length := by
  intro rows
  induction rows with
  | nil => intro v pos col; simp [fillRows]
  | cons tokens rows ih =>
    intro v pos col
    unfold fillRows
    by_cases hcv : count ≤ v
    · rw [if_pos hcv]; exact ⟨rfl, rfl⟩
    · rw [if_neg hcv]
      refine ⟨?_, ?_⟩
      · rw [(ih _ _ _).1, length_setTriple]
      · rw [(ih _ _ _).2]
        split
        · rw [length_setTriple]
        · rw [length_setTriple]

theorem fillRows_frame (xI yI zI rI gI bI : Nat) (hasColor : Bool) (count : Nat) :
    ∀ (rows : List (List (List Nat))) (v : Nat) (pos col : List ℚ) (j : Nat),
      j < 3 * v ∨ 3 * min (v + rows.length) count ≤ j →
      (fillRows xI yI zI rI gI bI hasColor count rows v pos col).1[j]? = pos[j]? ∧
      (fillRows xI yI zI rI gI bI hasColor count rows v pos col).2[j]? = col[j]? := by
  intro rows
  induction rows with
  | nil => intro v pos col j hj; simp [fillRows]
  | cons tokens rows ih =>
    intro v pos col j hj
    unfold fillRows
    by_cases hcv : count ≤ v
    · rw [if_pos hcv]; exact ⟨rfl, rfl⟩
    · rw [if_neg hcv]
      have hj2 : j < 3 * (v + 1) ∨ 3 * min ((v + 1) + rows.length) count ≤ j := by
        rcases hj with hlt | hge
        · left; omega
        · right
          have : min (v + (tokens :: rows).length) count = min ((v + 1) + rows.length) count := by
            simp only [List.length_cons]; omega
          omega
      have hout : j < 3 * v ∨ 3 * v + 3 ≤ j := by
        rcases hj with hlt | hge
        · left; exact hlt
        · right
          have hmin : v + 1 ≤ min (v + (tokens :: rows).length) count := by
            simp only [List.length_cons]
            omega
          omega
      have hrec := ih (v + 1)
        (setTriple pos v (jsParseFloat (tokens.getD xI []))
          (jsParseFloat (tokens.getD yI [])) (jsParseFloat (tokens.getD zI [])))
        (if hasColor then
          setTriple col v (jsParseFloat (tokens.getD rI []) / 255)
            (jsParseFloat (tokens.getD gI []) / 255)
            (jsParseFloat (tokens.getD bI []) / 255)
         else setTriple col v 1 1 1)
        j hj2
      rcases hout with hlt | hge
      · refine ⟨?_, ?_⟩
        · rw [hrec.1, getElem?_setTriple_lt _ _ _ _ hlt]
        · rw [hrec.2]
          split
          · rw [getElem?_setTriple_lt _ _ _ _ hlt]
          · rw [getElem?_setTriple_lt _ _ _ _ hlt]
      · refine ⟨?_, ?_⟩
        · rw [hrec.1, getElem?_setTriple_ge _ _ _ _ hge]
        · rw [hrec.2]
          split
          · rw [getElem?_setTriple_ge _ _ _ _ hge]
          · rw [getElem?_setTriple_ge _ _ _ _ hge]

theorem fillRows_get (xI yI zI rI gI bI : Nat) (hasColor : Bool) (count : Nat) :
    ∀ (rows : List (List (List Nat))) (v : Nat) (pos col : List ℚ),
      3 * count ≤ pos.length → 3 * count ≤ col.length →
      ∀ t, t < rows.length → v + t < count →
        (fillRows xI yI zI rI gI bI hasColor count rows v pos col).1[3 * (v + t)]? =
          some (jsParseFloat ((rows.getD t []).getD xI [])) ∧
        (fillRows xI yI zI rI gI bI hasColor count rows v pos col).1[3 * (v + t) + 1]? =
          some (jsParseFloat ((rows.getD t []).getD yI [])) ∧
        (fillRows xI yI zI rI gI bI hasColor count rows v pos col).1[3 * (v + t) + 2]? =
          some (jsParseFloat ((rows.getD t []).getD zI [])) ∧
        (fillRows xI yI zI rI gI bI hasColor count rows v pos col).2[3 * (v + t)]? =
          some (if hasColor then jsParseFloat ((rows.getD t []).getD rI []) / 255 else 1) ∧
        (fillRows xI yI zI rI gI bI hasColor count rows v pos col).2[3 * (v + t) + 1]? =
          some (if hasColor then jsParseFloat ((rows.getD t []).getD gI []) / 255 else 1) ∧
        (fillRows xI yI zI rI gI bI hasColor count rows v pos col).2[3 * (v + t) + 2]? =
          some (if hasColor then jsParseFloat ((rows.getD t []).getD bI []) / 255 else 1) := by
  intro rows
  induction rows with
  | nil => intro v pos col hp hc t ht; simp at ht
  | cons tokens rows ih =>
    intro v pos col hp hc t ht hvt
    have hvc : ¬count ≤ v := by omega
    unfold fillRows
    rw [if_neg hvc]
    cases t with
    | zero =>
      have hfr := fillRows_frame xI yI zI rI gI bI hasColor count rows (v + 1)
        (setTriple pos v (jsParseFloat (tokens.getD xI []))
          (jsParseFloat (tokens.getD yI [])) (jsParseFloat (tokens.getD zI [])))
        (if hasColor then
          setTriple col v (jsParseFloat (tokens.getD rI []) / 255)
            (jsParseFloat (tokens.getD gI []) / 255)
            (jsParseFloat (tokens.getD bI []) / 255)
         else setTriple col v 1 1 1)
      have h0 := hfr (3 * v) (Or.inl (by omega))
      have h1 := hfr (3 * v + 1) (Or.inl (by omega))
      have h2 := hfr (3 * v + 2) (Or.inl (by omega))
      have hps := getElem?_setTriple_self (jsParseFloat (tokens.getD xI []))
        (jsParseFloat (tokens.getD yI [])) (jsParseFloat (tokens.getD zI []))
        (l := pos) (v := v) (by omega)
      simp only [Nat.add_zero, List.getD_cons_zero]
      refine ⟨?_, ?_, ?_, ?_, ?_, ?_⟩
      · rw [h0.1]; exact hps.1
      · rw [h1.1]; exact hps.2.1
      · rw [h2.1]; exact hps.2.2
      · rw [h0.2]
        cases hcol : hasColor with
        | false =>
          simp only [Bool.false_eq_true, if_false]
          exact (getElem?_setTriple_self 1 1 1 (l := col) (v := v) (by omega)).1
        | true =>
          simp only [if_true]
          exact (getElem?_setTriple_self _ _ _ (l := col) (v := v) (by omega)).1
      · rw [h1.2]
        cases hcol : hasColor with
        | false =>
          simp only [Bool.false_eq_true, if_false]
          exact (getElem?_setTriple_self 1 1 1 (l := col) (v := v) (by omega)).2.1
        | true =>
          simp only [if_true]
          exact (getElem?_setTriple_self _ _ _ (l := col) (v := v) (by omega)).2.1
      · rw [h2.2]
        cases hcol : hasColor with
        | false =>
          simp only [Bool.false_eq_true, if_false]
          exact (getElem?_setTriple_self 1 1 1 (l := col) (v := v) (by omega)).2.2
        | true =>
          simp only [if_true]
          exact (getElem?_setTriple_self _ _ _ (l := col) (v := v) (by omega)).2.2
    | succ t =>
      have hrec := ih (v + 1)
        (setTriple pos v (jsParseFloat (tokens.getD xI []))
          (jsParseFloat (tokens.getD yI [])) (jsParseFloat (tokens.getD zI [])))
        (if hasColor then
          setTriple col v (jsParseFloat (tokens.getD rI []) / 255)
            (jsParseFloat (tokens.getD gI []) / 255)
            (jsParseFloat (tokens.getD bI []) / 255)
         else setTriple col v 1 1 1)
        (by rw [length_setTriple]; omega)
        (by split
            · rw [length_setTriple]; omega
            · rw [length_setTriple]; omega)
        t (by simp only [List.length_cons] at ht; omega) (by omega)
      have hvt1 : v + 1 + t = v + (t + 1) := by omega
      rw [hvt1] at hrec
      simpa only [List.getD_cons_succ] using hrec

theorem rawLoop_length (floats : List ℚ) :
    ∀ (n i : Nat) (pos col : List ℚ),
      (rawLoop floats i n pos col).1.length = pos.length ∧
      (rawLoop floats i n pos col).2.length = col.length := by
  intro n
  induction n with
  | zero => intro i pos col; simp [rawLoop]
  | succ n ih =>
    intro i pos col
    unfold rawLoop
    refine ⟨?_, ?_⟩
    · rw [(ih _ _ _).1, length_setTriple]
    · rw [(ih _ _ _).2, length_setTriple]

theorem rawLoop_frame (floats : List ℚ) :
    ∀ (n i : Nat) (pos col : List ℚ) (j : Nat), j < 3 * i →
      (rawLoop floats i n pos col).1[j]? = pos[j]? ∧
      (rawLoop floats i n pos col).2[j]? = col[j]? := by
  intro n
  induction n with
  | zero => intro i pos col j hj; simp [rawLoop]
  | succ n ih =>
    intro i pos col j hj
    unfold rawLoop
    have hrec := ih (i + 1)
      (setTriple pos i (floats.getD (6 * i) 0) (floats.getD (6 * i + 1) 0)
        (floats.getD (6 * i + 2) 0))
      (setTriple col i (floats.getD (6 * i + 3) 0) (floats.getD (6 * i + 4) 0)
        (floats.getD (6 * i + 5) 0))
      j (by omega)
    refine ⟨?_, ?_⟩
    · rw [hrec.1, getElem?_setTriple_lt _ _ _ _ hj]
    · rw [hrec.2, getElem?_setTriple_lt _ _ _ _ hj]

theorem rawLoop_get (floats : List ℚ) :
    ∀ (n i : Nat) (pos col : List ℚ),
      3 * (i + n) ≤ pos.length → pos.length = col.length →
      ∀ t, t < n →
        (rawLoop floats i n pos col).1[3 * (i + t)]? = some (floats.getD (6 * (i + t)) 0) ∧
        (rawLoop floats i n pos col).1[3 * (i + t) + 1]? = some (floats.getD (6 * (i + t) + 1) 0) ∧
        (rawLoop floats i n pos col).1[3 * (i + t) + 2]? = some (floats.getD (6 * (i + t) + 2) 0) ∧
        (rawLoop floats i n pos col).2[3 * (i + t)]? = some (floats.getD (6 * (i + t) + 3) 0) ∧
        (rawLoop floats i n pos col).2[3 * (i + t) + 1]? = some (floats.getD (6 * (i + t) + 4) 0) ∧
        (rawLoop floats i n pos col).2[3 * (i + t) + 2]? = some (floats.getD (6 * (i + t) + 5) 0) := by
  intro n
  induction n with
  | zero => intro i pos col hp hcl t ht; omega
  | succ n ih =>
    intro i pos col hp hcl t ht
    unfold rawLoop
    cases t with
    | zero =>
      have hfr := rawLoop_frame floats n (i + 1)
        (setTriple pos i (floats.getD (6 * i) 0) (floats.getD (6 * i + 1) 0)
          (floats.getD (6 * i + 2) 0))
        (setTriple col i (floats.getD (6 * i + 3) 0) (floats.getD (6 * i + 4) 0)
          (floats.getD (6 * i + 5) 0))
      have h0 := hfr (3 * i) (by omega)
      have h1 := hfr (3 * i + 1) (by omega)
      have h2 := hfr (3 * i + 2) (by omega)
      have hps := getElem?_setTriple_self (floats.getD (6 * i) 0) (floats.getD (6 * i + 1) 0)
        (floats.getD (6 * i + 2) 0) (l := pos) (v := i) (by omega)
      have hcs := getElem?_setTriple_self (floats.getD (6 * i + 3) 0) (floats.getD (6 * i + 4) 0)
        (floats.getD (6 * i + 5) 0) (l := col) (v := i) (by omega)
      simp only [Nat.add_zero]
      exact ⟨by rw [h0.1]; exact hps.1, by rw [h1.1]; exact hps.2.1,
        by rw [h2.1]; exact hps.2.2, by rw [h0.2]; exact hcs.1,
        by rw [h1.2]; exact hcs.2.1, by rw [h2.2]; exact hcs.2.2⟩
    | succ t =>
      have hrec := ih (i + 1)
        (setTriple pos i (floats.getD (6 * i) 0) (floats.getD (6 * i + 1) 0)
          (floats.getD (6 * i + 2) 0))
        (setTriple col i (floats.getD (6 * i + 3) 0) (floats.getD (6 * i + 4) 0)
          (floats.getD (6 * i + 5) 0))
        (by rw [length_setTriple]; omega)
        (by rw [length_setTriple, length_setTriple]; omega)
        t (by omega)
      have hit : i + 1 + t = i + (t + 1) := by omega
      rw [hit] at hrec
      exact hrec

theorem chunk4_length : ∀ l : List Nat, (chunk4 l).length = l.length / 4 := by
  intro l
  induction l using chunk4.induct with
  | case1 a b c d t ih =>
    simp only [chunk4, List.length_cons, ih]
    omega
  | case2 l h =>
    match l, h with
    | [], _ => simp [chunk4]
    | [a], _ => simp [chunk4]
    | [a, b], _ => simp [chunk4]
    | [a, b, c], _ => simp [chunk4]
    | a :: b :: c :: d :: t, h => exact (h a b c d t rfl).elim

theorem rIndexOf_long (buf : List Nat)
    (h : idxOfB (asciiB "red") (headerOf buf).order ≠ none) :
    rIndexOf buf = idxOfB (asciiB "red") (headerOf buf).order := by
  unfold rIndexOf
  cases hr : idxOfB (asciiB "red") (headerOf buf).order with
  | none => exact absurd hr h
  | some i => rfl

theorem gIndexOf_long (buf : List Nat)
    (h : idxOfB (asciiB "green") (headerOf buf).order ≠ none) :
    gIndexOf buf = idxOfB (asciiB "green") (headerOf buf).order := by
  unfold gIndexOf
  cases hr : idxOfB (asciiB "green") (headerOf buf).order with
  | none => exact absurd hr h
  | some i => rfl

theorem bIndexOf_long (buf : List Nat)
    (h : idxOfB (asciiB "blue") (headerOf buf).order ≠ none) :
    bIndexOf buf = idxOfB (asciiB "blue") (headerOf buf).order := by
  unfold bIndexOf
  cases hr : idxOfB (asciiB "blue") (headerOf buf).order with
  | none => exact absurd hr h
  | some i => rfl

theorem parsePly_ok_cases (buf : List Nat) (ps : PointSet) (h : parsePly buf = .ok ps) :
    ∃ n : Int, (headerOf buf).vcount = some n ∧ 0 < n ∧ ps.count = n.toNat ∧
      ¬(xIndexOf buf = none ∨ yIndexOf buf = none ∨ zIndexOf buf = none) ∧
      ∃ fmt, (headerOf buf).format = some fmt ∧
        ((fmt = asciiB "ascii" ∧
          (ps.positions, ps.colors) =
            fillRows ((xIndexOf buf).getD 0) ((yIndexOf buf).getD 0) ((zIndexOf buf).getD 0)
              ((rIndexOf buf).getD 0) ((gIndexOf buf).getD 0) ((bIndexOf buf).getD 0)
              (hasColorOf buf) ps.count (rowsOf buf) 0
              (List.replicate (ps.count * 3) 0) (List.replicate (ps.count * 3) 0)) ∨
         ((fmt = asciiB "binary_little_endian" ∨ fmt = asciiB "binary_big_endian") ∧
          binLoop (dataOf buf) (decide (fmt = asciiB "binary_little_endian"))
            (hasColorOf buf) (propsOf buf) (strideOf buf) 0 ps.count
            (List.replicate (ps.count * 3) 0) (List.replicate (ps.count * 3) 0) =
            some (ps.positions, ps.colors))) := by
  unfold parsePly at h
  cases hend : headerEndOf buf with
  | none => rw [hend] at h; exact absurd h (by simp)
  | some he =>
    rw [hend] at h
    simp only at h
    cases hf : (headerOf buf).format with
    | none => rw [hf] at h; exact absurd h (by simp)
    | some fmt =>
      rw [hf] at h
      simp only at h
      by_cases hv : (headerOf buf).vcount = none ∨ (headerOf buf).vcount = some 0
      · rw [if_pos hv] at h; exact absurd h (by simp)
      · rw [if_neg hv] at h
        by_cases hxyz : xIndexOf buf = none ∨ yIndexOf buf = none ∨ zIndexOf buf = none
        · rw [if_pos hxyz] at h; exact absurd h (by simp)
        · rw [if_neg hxyz] at h
          by_cases hneg : (headerOf buf).vcount.getD 0 < 0
          · rw [if_pos hneg] at h; exact absurd h (by simp)
          · rw [if_neg hneg] at h
            obtain ⟨n, hn⟩ : ∃ n, (headerOf buf).vcount = some n := by
              cases hvc : (headerOf buf).vcount with
              | none => exact absurd (Or.inl hvc) hv
              | some n => exact ⟨n, rfl⟩
            have hn0 : n ≠ 0 := by
              intro h0
              exact hv (Or.inr (by rw [hn, h0]))
            have hnn : ¬n < 0 := by rw [hn] at hneg; exact hneg
            have hpos : 0 < n := by omega
            by_cases ha : fmt = asciiB "ascii"
            · rw [if_pos ha] at h
              simp only [Except.ok.injEq] at h
              subst h
              refine ⟨n, hn, hpos, by rw [hn]; rfl, hxyz, fmt, rfl, Or.inl ⟨ha, ?_⟩⟩
              rw [Prod.mk.eta, asciiLoop_eq_fillRows]
              rw [hn]
              rfl
            · rw [if_neg ha] at h
              by_cases hble : fmt = asciiB "binary_little_endian" ∨
                  fmt = asciiB "binary_big_endian"
              · rw [if_pos hble] at h
                cases hb : binLoop (dataOf buf)
                    (decide (fmt = asciiB "binary_little_endian")) (hasColorOf buf)
                    (propsOf buf) (strideOf buf) 0 ((headerOf buf).vcount.getD 0).toNat
                    (List.replicate (((headerOf buf).vcount.getD 0).toNat * 3) 0)
                    (List.replicate (((headerOf buf).vcount.getD 0).toNat * 3) 0) with
                | none => rw [hb] at h; exact absurd h (by simp)
                | some res =>
                  rw [hb] at h
                  simp only [Except.ok.injEq] at h
                  subst h
                  refine ⟨n, hn, hpos, by rw [hn]; rfl, hxyz, fmt, rfl, Or.inr ⟨hble, ?_⟩⟩
                  rw [Prod.mk.eta]
                  exact hb
              · rw [if_neg hble] at h
                exact absurd h (by simp)

/-! ### Claims -/

/-- C2: for every structured buffer that decodes without error and whose
header declares element count `n` with `x`, `y`, `z` among the collected
vertex properties, the returned result has `count = n` and its positions
and colors each hold exactly `n` three-component entries (flat arrays of
length `3 * count`). -/
theorem c2_count_and_lengths (buf : List Nat) (ps : PointSet) (n : Int)
    (hn : (headerOf buf).vcount = some n)
    (_hx : idxOfB (asciiB "x") (headerOf buf).order ≠ none)
    (_hy : idxOfB (asciiB "y") (headerOf buf).order ≠ none)
    (_hz : idxOfB (asciiB "z") (headerOf buf).order ≠ none)
    (hok : parsePly buf = .ok ps) :
    (ps.count : Int) = n ∧ ps.positions.length = 3 * ps.count ∧
      ps.colors.length = 3 * ps.count := by
  obtain ⟨m, hm, hmpos, hcnt, hxyz, fmt, hf, hbr⟩ := parsePly_ok_cases buf ps hok
  rw [hn] at hm
  injection hm with hm
  subst hm
  refine ⟨by omega, ?_⟩
  rcases hbr with ⟨ha, hpair⟩ | ⟨hble, hbin⟩
  · have h1 : ps.positions = (fillRows ((xIndexOf buf).getD 0) ((yIndexOf buf).getD 0)
      ((zIndexOf buf).getD 0) ((rIndexOf buf).getD 0) ((gIndexOf buf).getD 0)
      ((bIndexOf buf).getD 0) (hasColorOf buf) ps.count (rowsOf buf) 0
      (List.replicate (ps.count * 3) 0) (List.replicate (ps.count * 3) 0)).1 :=
      congrArg Prod.fst hpair
    have h2 : ps.colors = (fillRows ((xIndexOf buf).getD 0) ((yIndexOf buf).getD 0)
      ((zIndexOf buf).getD 0) ((rIndexOf buf).getD 0) ((gIndexOf buf).getD 0)
      ((bIndexOf buf).getD 0) (hasColorOf buf) ps.count (rowsOf buf) 0
      (List.replicate (ps.count * 3) 0) (List.replicate (ps.count * 3) 0)).2 :=
      congrArg Prod.snd hpair
    rw [h1, h2, (fillRows_length _ _ _ _ _ _ _ _ _ _ _ _).1,
      (fillRows_length _ _ _ _ _ _ _ _ _ _ _ _).2, List.length_replicate]
    omega
  · obtain ⟨h1, h2⟩ := binLoop_length (dataOf buf)
      (decide (fmt = asciiB "binary_little_endian")) (hasColorOf buf) (propsOf buf)
      (strideOf buf) ps.count 0 _ _ _ _ hbin
    rw [h1, h2, List.length_replicate]
    omega

set_option maxRecDepth 100000 in
/-- Witness for C2 at a concrete two-vertex ASCII buffer. -/
theorem c2_witness :
    (headerOf c2WitBuf).vcount = some 2 ∧
    parsePly c2WitBuf =
      .ok ⟨2, [1, 2, 3, 4, 5, 6], [2/51, 4/51, 2/17, 8/51, 10/51, 4/17]⟩ ∧
    (((⟨2, [1, 2, 3, 4, 5, 6], [2/51, 4/51, 2/17, 8/51, 10/51, 4/17]⟩ : PointSet).count : Int) = 2 ∧
      (⟨2, [1, 2, 3, 4, 5, 6], [2/51, 4/51, 2/17, 8/51, 10/51, 4/17]⟩ : PointSet).positions.length =
        3 * (⟨2, [1, 2, 3, 4, 5, 6], [2/51, 4/51, 2/17, 8/51, 10/51, 4/17]⟩ : PointSet).count ∧
      (⟨2, [1, 2, 3, 4, 5, 6], [2/51, 4/51, 2/17, 8/51, 10/51, 4/17]⟩ : PointSet).colors.length =
        3 * (⟨2, [1, 2, 3, 4, 5, 6], [2/51, 4/51, 2/17, 8/51, 10/51, 4/17]⟩ : PointSet).count) :=
  ⟨by decide, by decide!,
    c2_count_and_lengths c2WitBuf
      ⟨2, [1, 2, 3, 4, 5, 6], [2/51, 4/51, 2/17, 8/51, 10/51, 4/17]⟩ 2
      (by decide) (by decide) (by decide) (by decide) (by decide!)⟩

/-- C3: for every buffer the sniffer classifies as structured, if the
literal terminator `end_header` does not occur within the first 64 KiB,
the decode fails with the FormatError of the missing terminator and no
point set is returned. -/
theorem c3_missing_end_header (buf : List Nat)
    (hply : isPlyBuffer buf = true) (hend : headerEndOf buf = none) :
    loadSimpleSplatFromArrayBuffer buf =
      .error (.formatError "PLY header does not contain end_header.") := by
  unfold loadSimpleSplatFromArrayBuffer
  rw [if_pos hply]
  unfold parsePly
  rw [hend]
  rfl

set_option maxRecDepth 100000 in
/-- Witness for C3 at the buffer consisting of just the marker `ply`. -/
theorem c3_witness :
    isPlyBuffer (asciiB "ply\n") = true ∧ headerEndOf (asciiB "ply\n") = none ∧
    loadSimpleSplatFromArrayBuffer (asciiB "ply\n") =
      .error (.formatError "PLY header does not contain end_header.") :=
  ⟨by decide, by decide, c3_missing_end_header (asciiB "ply\n") (by decide) (by decide)⟩

/-- C8: a raw buffer holding fewer than six 32-bit floats yields the
well-defined empty outcome (`null`, not an error). -/
theorem c8_raw_empty (buf : List Nat) (hply : isPlyBuffer buf = false)
    (hmod : buf.length % 4 = 0) (hfew : buf.length / 4 < 6) :
    loadSimpleSplatFromArrayBuffer buf = .ok none := by
  unfold loadSimpleSplatFromArrayBuffer
  rw [if_neg (by simp [hply]), if_neg (by omega)]
  have hlen : (rawFloats buf).length = buf.length / 4 := by
    rw [rawFloats, List.length_map, chunk4_length]
  simp only [hlen, Nat.div_eq_of_lt hfew]
  rfl

/-- Witness for C8 at a 4-byte raw buffer (one float only). -/
theorem c8_witness :
    isPlyBuffer [1, 2, 3, 4] = false ∧ ([1, 2, 3, 4] : List Nat).length % 4 = 0 ∧
    ([1, 2, 3, 4] : List Nat).length / 4 < 6 ∧
    loadSimpleSplatFromArrayBuffer [1, 2, 3, 4] = .ok none :=
  ⟨by decide, by decide, by decide,
    c8_raw_empty [1, 2, 3, 4] (by decide) (by decide) (by decide)⟩

/-- C9: a raw buffer whose byte length is not a multiple of 4 makes the
`Float32Array` view construction throw (RangeError) instead of reaching
the warn-and-decode path. -/
theorem c9_raw_misaligned (buf : List Nat) (hply : isPlyBuffer buf = false)
    (hmod : buf.length % 4 ≠ 0) :
    loadSimpleSplatFromArrayBuffer buf = .error .rangeError := by
  unfold loadSimpleSplatFromArrayBuffer
  rw [if_neg (by simp [hply]), if_pos hmod]

/-- Witness for C9 at a 3-byte raw buffer. -/
theorem c9_witness :
    isPlyBuffer [1, 2, 3] = false ∧ ([1, 2, 3] : List Nat).length % 4 ≠ 0 ∧
    loadSimpleSplatFromArrayBuffer [1, 2, 3] = .error .rangeError :=
  ⟨by decide, by decide, c9_raw_misaligned [1, 2, 3] (by decide) (by decide)⟩

/-- C7: a raw buffer of `6*N + k` 32-bit floats (`N ≥ 1`, `0 ≤ k < 6`)
decodes to exactly `N` points whose positions are the first three and whose
colors the last three floats of each group of six, copied directly with no
normalization; the trailing `k` floats are dropped without error. -/
theorem c7_raw_decode (buf : List Nat) (N k : Nat)
    (hply : isPlyBuffer buf = false)
    (hmod : buf.length % 4 = 0)
    (hNk : buf.length / 4 = 6 * N + k) (hk : k < 6) (hN : 1 ≤ N) :
    ∃ ps : PointSet, loadSimpleSplatFromArrayBuffer buf = .ok (some ps) ∧
      ps.count = N ∧ ps.positions.length = 3 * N ∧ ps.colors.length = 3 * N ∧
      ∀ i, i < N →
        ps.positions[3 * i]? = some ((rawFloats buf).getD (6 * i) 0) ∧
        ps.positions[3 * i + 1]? = some ((rawFloats buf).getD (6 * i + 1) 0) ∧
        ps.positions[3 * i + 2]? = some ((rawFloats buf).getD (6 * i + 2) 0) ∧
        ps.colors[3 * i]? = some ((rawFloats buf).getD (6 * i + 3) 0) ∧
        ps.colors[3 * i + 1]? = some ((rawFloats buf).getD (6 * i + 4) 0) ∧
        ps.colors[3 * i + 2]? = some ((rawFloats buf).getD (6 * i + 5) 0) := by
  have hlen : (rawFloats buf).length = buf.length / 4 := by
    rw [rawFloats, List.length_map, chunk4_length]
  have hcount : (rawFloats buf).length / 6 = N := by rw [hlen, hNk]; omega
  unfold loadSimpleSplatFromArrayBuffer
  rw [if_neg (by simp [hply]), if_neg (by omega)]
  simp only [hcount, if_neg (by omega : ¬N = 0)]
  refine ⟨_, rfl, rfl, ?_, ?_, ?_⟩
  · rw [(rawLoop_length _ _ _ _ _).1, List.length_replicate]; omega
  · rw [(rawLoop_length _ _ _ _ _).2, List.length_replicate]; omega
  · intro i hi
    have := rawLoop_get (rawFloats buf) N 0
      (List.replicate (N * 3) 0) (List.replicate (N * 3) 0)
      (by rw [List.length_replicate]; omega) rfl
      i hi
    simpa only [Nat.zero_add] using this

/-- Witness for C7 at a 7-float raw buffer (one complete group + 1 extra float). -/
theorem c7_witness :
    isPlyBuffer c7WitBuf = false ∧ c7WitBuf.length % 4 = 0 ∧
    c7WitBuf.length / 4 = 6 * 1 + 1 ∧ (1 : Nat) < 6 ∧ (1 : Nat) ≤ 1 ∧
    (∃ ps : PointSet, loadSimpleSplatFromArrayBuffer c7WitBuf = .ok (some ps) ∧
      ps.count = 1 ∧ ps.positions.length = 3 * 1 ∧ ps.colors.length = 3 * 1 ∧
      ∀ i, i < 1 →
        ps.positions[3 * i]? = some ((rawFloats c7WitBuf).getD (6 * i) 0) ∧
        ps.positions[3 * i + 1]? = some ((rawFloats c7WitBuf).getD (6 * i + 1) 0) ∧
        ps.positions[3 * i + 2]? = some ((rawFloats c7WitBuf).getD (6 * i + 2) 0) ∧
        ps.colors[3 * i]? = some ((rawFloats c7WitBuf).getD (6 * i + 3) 0) ∧
        ps.colors[3 * i + 1]? = some ((rawFloats c7WitBuf).getD (6 * i + 4) 0) ∧
        ps.colors[3 * i + 2]? = some ((rawFloats c7WitBuf).getD (6 * i + 5) 0)) :=
  ⟨by decide, by decide, by decide, by decide, by decide,
    c7_raw_decode c7WitBuf 1 1 (by decide) (by decide) (by decide) (by decide) (by decide)⟩

/-- C10: in text mode, when the data section has fewer qualifying lines
(non-blank, with at least as many tokens as declared properties) than the
declared element count, the returned point set still has
`count = elementCount` and every unfilled trailing point has position
`(0,0,0)` and color `(0,0,0)` — not the white default. -/
theorem c10_ascii_underrun (buf : List Nat) (ps : PointSet)
    (hok : parsePly buf = .ok ps)
    (hfmt : (headerOf buf).format = some (asciiB "ascii"))
    (hlt : (rowsOf buf).length < countOf buf) :
    ps.count = countOf buf ∧
    ∀ i, (rowsOf buf).length ≤ i → i < ps.count →
      ps.positions[3 * i]? = some 0 ∧ ps.positions[3 * i + 1]? = some 0 ∧
      ps.positions[3 * i + 2]? = some 0 ∧
      ps.colors[3 * i]? = some 0 ∧ ps.colors[3 * i + 1]? = some 0 ∧
      ps.colors[3 * i + 2]? = some 0 := by
  obtain ⟨n, hn, hnpos, hcnt, hxyz, fmt, hf, hbr⟩ := parsePly_ok_cases buf ps hok
  have hcount : ps.count = countOf buf := by
    rw [hcnt]; unfold countOf; rw [hn]; rfl
  refine ⟨hcount, ?_⟩
  intro i hge hilt
  rcases hbr with ⟨ha, hpair⟩ | ⟨hble, hbin⟩
  · have h1 : ps.positions = (fillRows ((xIndexOf buf).getD 0) ((yIndexOf buf).getD 0)
      ((zIndexOf buf).getD 0) ((rIndexOf buf).getD 0) ((gIndexOf buf).getD 0)
      ((bIndexOf buf).getD 0) (hasColorOf buf) ps.count (rowsOf buf) 0
      (List.replicate (ps.count * 3) 0) (List.replicate (ps.count * 3) 0)).1 :=
      congrArg Prod.fst hpair
    have h2 : ps.colors = (fillRows ((xIndexOf buf).getD 0) ((yIndexOf buf).getD 0)
      ((zIndexOf buf).getD 0) ((rIndexOf buf).getD 0) ((gIndexOf buf).getD 0)
      ((bIndexOf buf).getD 0) (hasColorOf buf) ps.count (rowsOf buf) 0
      (List.replicate (ps.count * 3) 0) (List.replicate (ps.count * 3) 0)).2 :=
      congrArg Prod.snd hpair
    have hmin : min (0 + (rowsOf buf).length) ps.count = (rowsOf buf).length := by
      rw [hcount]; omega
    have frame := fun j (hj : 3 * min (0 + (rowsOf buf).length) ps.count ≤ j) =>
      fillRows_frame ((xIndexOf buf).getD 0) ((yIndexOf buf).getD 0)
        ((zIndexOf buf).getD 0) ((rIndexOf buf).getD 0) ((gIndexOf buf).getD 0)
        ((bIndexOf buf).getD 0) (hasColorOf buf) ps.count (rowsOf buf) 0
        (List.replicate (ps.count * 3) 0) (List.replicate (ps.count * 3) 0) j (Or.inr hj)
    rw [h1, h2]
    have frame0 := frame (3 * i) (by omega)
    have frame1 := frame (3 * i + 1) (by omega)
    have frame2 := frame (3 * i + 2) (by omega)
    rw [frame0.1, frame0.2, frame1.1, frame1.2, frame2.1, frame2.2]
    have hr0 : 3 * i < ps.count * 3 := by omega
    have hr1 : 3 * i + 1 < ps.count * 3 := by omega
    have hr2 : 3 * i + 2 < ps.count * 3 := by omega
    exact ⟨List.getElem?_replicate_of_lt hr0, List.getElem?_replicate_of_lt hr1,
      List.getElem?_replicate_of_lt hr2, List.getElem?_replicate_of_lt hr0,
      List.getElem?_replicate_of_lt hr1, List.getElem?_replicate_of_lt hr2⟩
  · exfalso
    rw [hf] at hfmt
    injection hfmt with hfmt
    rcases hble with hb1 | hb1 <;> rw [hb1] at hfmt <;> exact absurd hfmt (by decide)

set_option maxRecDepth 100000 in
/-- Witness for C10 at a two-vertex ASCII buffer with a single data line:
the second (unfilled) point is all zeros. -/
theorem c10_witness :
    parsePly c10WitBuf = .ok ⟨2, [1, 2, 3, 0, 0, 0], [1, 1, 1, 0, 0, 0]⟩ ∧
    (headerOf c10WitBuf).format = some (asciiB "ascii") ∧
    (rowsOf c10WitBuf).length < countOf c10WitBuf ∧
    ((⟨2, [1, 2, 3, 0, 0, 0], [1, 1, 1, 0, 0, 0]⟩ : PointSet).positions[3 * 1]? = some 0 ∧
     (⟨2, [1, 2, 3, 0, 0, 0], [1, 1, 1, 0, 0, 0]⟩ : PointSet).positions[3 * 1 + 1]? = some 0 ∧
     (⟨2, [1, 2, 3, 0, 0, 0], [1, 1, 1, 0, 0, 0]⟩ : PointSet).positions[3 * 1 + 2]? = some 0 ∧
     (⟨2, [1, 2, 3, 0, 0, 0], [1, 1, 1, 0, 0, 0]⟩ : PointSet).colors[3 * 1]? = some 0 ∧
     (⟨2, [1, 2, 3, 0, 0, 0], [1, 1, 1, 0, 0, 0]⟩ : PointSet).colors[3 * 1 + 1]? = some 0 ∧
     (⟨2, [1, 2, 3, 0, 0, 0], [1, 1, 1, 0, 0, 0]⟩ : PointSet).colors[3 * 1 + 2]? = some 0) :=
  ⟨by decide!, by decide, by decide,
    (c10_ascii_underrun c10WitBuf ⟨2, [1, 2, 3, 0, 0, 0], [1, 1, 1, 0, 0, 0]⟩
      (by decide!) (by decide) (by decide)).2 1 (by decide) (by decide)⟩


set_option maxRecDepth 100000 in
/-- C6 counterexample: the mixed-convention triple `red g blue` contains no
complete color triple by either single naming convention (neither all of
`red green blue` nor all of `r g b`), yet the decode is colorized: the
returned color of the single (fully decoded) point is `(0, 20/255, 30/255)`,
not `(1,1,1)`. -/
theorem c6_counterexample :
    ¬(idxOfB (asciiB "red") (headerOf c6BadBuf).order ≠ none ∧
      idxOfB (asciiB "green") (headerOf c6BadBuf).order ≠ none ∧
      idxOfB (asciiB "blue") (headerOf c6BadBuf).order ≠ none) ∧
    ¬(idxOfB (asciiB "r") (headerOf c6BadBuf).order ≠ none ∧
      idxOfB (asciiB "g") (headerOf c6BadBuf).order ≠ none ∧
      idxOfB (asciiB "b") (headerOf c6BadBuf).order ≠ none) ∧
    parsePly c6BadBuf = .ok ⟨1, [1, 2, 3], [0, 4/51, 2/17]⟩ ∧
    (0 : ℚ) ≠ 1 :=
  ⟨by decide, by decide, by decide!, by norm_num⟩

set_option maxHeartbeats 2000000 in
/-- C6 (amended): when color decoding is off — some channel has neither its
long-form nor its single-letter property, i.e. `hasColor` is false — every
point whose record is actually decoded has color exactly `(1,1,1)`; in text
mode the trailing unfilled slots instead keep the `(0,0,0)` initialization. -/
theorem c6_amended_default_white (buf : List Nat) (ps : PointSet)
    (hok : parsePly buf = .ok ps)
    (hnc : hasColorOf buf = false) :
    ∀ i, i < ps.count →
      (i < decodedCountOf buf →
        ps.colors[3 * i]? = some 1 ∧ ps.colors[3 * i + 1]? = some 1 ∧
        ps.colors[3 * i + 2]? = some 1) ∧
      (decodedCountOf buf ≤ i →
        ps.colors[3 * i]? = some 0 ∧ ps.colors[3 * i + 1]? = some 0 ∧
        ps.colors[3 * i + 2]? = some 0) := by
  obtain ⟨n, hn, hnpos, hcnt, hxyz, fmt, hf, hbr⟩ := parsePly_ok_cases buf ps hok
  have hcount : ps.count = countOf buf := by
    rw [hcnt]; unfold countOf; rw [hn]; rfl
  intro i hilt
  rcases hbr with ⟨ha, hpair⟩ | ⟨hble, hbin⟩
  · -- text mode
    have hdec : decodedCountOf buf = filledOf buf := by
      unfold decodedCountOf
      rw [if_pos (by rw [hf, ha])]
    have h2 : ps.colors = (fillRows ((xIndexOf buf).getD 0) ((yIndexOf buf).getD 0)
      ((zIndexOf buf).getD 0) ((rIndexOf buf).getD 0) ((gIndexOf buf).getD 0)
      ((bIndexOf buf).getD 0) (hasColorOf buf) ps.count (rowsOf buf) 0
      (List.replicate (ps.count * 3) 0) (List.replicate (ps.count * 3) 0)).2 :=
      congrArg Prod.snd hpair
    have hfil : filledOf buf = min (countOf buf) (rowsOf buf).length := rfl
    constructor
    · intro hi
      have hrows : i < (rowsOf buf).length := by
        rw [hdec, hfil] at hi; omega
      have hic : 0 + i < ps.count := by omega
      have hget := fillRows_get ((xIndexOf buf).getD 0) ((yIndexOf buf).getD 0)
        ((zIndexOf buf).getD 0) ((rIndexOf buf).getD 0) ((gIndexOf buf).getD 0)
        ((bIndexOf buf).getD 0) (hasColorOf buf) ps.count (rowsOf buf) 0
        (List.replicate (ps.count * 3) 0) (List.replicate (ps.count * 3) 0)
        (by rw [List.length_replicate]; omega) (by rw [List.length_replicate]; omega)
        i hrows hic
      rw [hnc] at h2
      rw [h2]
      simp only [Nat.zero_add, hnc, Bool.false_eq_true, if_false] at hget
      exact ⟨hget.2.2.2.1, hget.2.2.2.2.1, hget.2.2.2.2.2⟩
    · intro hi
      have hrows : (rowsOf buf).length ≤ i := by
        rw [hdec, hfil] at hi
        rw [hcount] at hilt
        omega
      have frame := fun j (hj : 3 * min (0 + (rowsOf buf).length) ps.count ≤ j) =>
        fillRows_frame ((xIndexOf buf).getD 0) ((yIndexOf buf).getD 0)
          ((zIndexOf buf).getD 0) ((rIndexOf buf).getD 0) ((gIndexOf buf).getD 0)
          ((bIndexOf buf).getD 0) (hasColorOf buf) ps.count (rowsOf buf) 0
          (List.replicate (ps.count * 3) 0) (List.replicate (ps.count * 3) 0) j (Or.inr hj)
      rw [h2]
      have f0 := (frame (3 * i) (by omega)).2
      have f1 := (frame (3 * i + 1) (by omega)).2
      have f2 := (frame (3 * i + 2) (by omega)).2
      rw [f0, f1, f2]
      exact ⟨List.getElem?_replicate_of_lt (by omega),
        List.getElem?_replicate_of_lt (by omega),
        List.getElem?_replicate_of_lt (by omega)⟩
  · -- binary mode
    have hdec : decodedCountOf buf = countOf buf := by
      unfold decodedCountOf
      rw [if_neg]
      intro hc
      rw [hf] at hc
      injection hc with hc
      rcases hble with h1 | h1 <;> rw [h1] at hc <;> exact absurd hc (by decide)
    constructor
    · intro hi
      obtain ⟨x, y, z, r, g, b, hbv, hp0, hp1, hp2, hc0, hc1, hc2⟩ :=
        binLoop_spec (dataOf buf) (decide (fmt = asciiB "binary_little_endian"))
          (hasColorOf buf) (propsOf buf) (strideOf buf) ps.count 0 _ _ _ _ hbin
          (by rw [List.length_replicate]; omega) rfl i (by omega)
      rw [hnc] at hbv
      have hrgb : (r, g, b) = ((1 : ℚ), (1 : ℚ), (1 : ℚ)) :=
        binVertex_noColor (dataOf buf) _ _ _ _ _ _ hbv
      have hr : r = 1 := congrArg (fun p => p.1) hrgb
      have hg : g = 1 := congrArg (fun p => p.2.1) hrgb
      have hb2 : b = 1 := congrArg (fun p => p.2.2) hrgb
      rw [hr] at hc0
      rw [hg] at hc1
      rw [hb2] at hc2
      simp only [Nat.zero_add] at hc0 hc1 hc2
      exact ⟨hc0, hc1, hc2⟩
    · intro hi
      exfalso
      rw [hdec] at hi
      rw [hcount] at hilt
      omega

set_option maxRecDepth 100000 in
/-- Witness for C6 (amended) at a binary one-vertex buffer with positions
only: the decoded point is white. -/
theorem c6_witness :
    parsePly c6WitBuf = .ok ⟨1, [1, 2, 3], [1, 1, 1]⟩ ∧
    hasColorOf c6WitBuf = false ∧
    ((⟨1, [1, 2, 3], [1, 1, 1]⟩ : PointSet).colors[3 * 0]? = some 1 ∧
     (⟨1, [1, 2, 3], [1, 1, 1]⟩ : PointSet).colors[3 * 0 + 1]? = some 1 ∧
     (⟨1, [1, 2, 3], [1, 1, 1]⟩ : PointSet).colors[3 * 0 + 2]? = some 1) :=
  ⟨by decide!, by decide,
    ((c6_amended_default_white c6WitBuf ⟨1, [1, 2, 3], [1, 1, 1]⟩
      (by decide!) (by decide)) 0 (by decide)).1 (by decide)⟩

set_option maxRecDepth 100000 in
/-- C5 counterexample: in the binary encoding, with `red` declared before a
later `r` property, the decoded red channel is the later `r` value
(`40/255 = 8/51`), not the long-form `red` value (`10/255 = 2/51`): the
per-property loop overwrites the channel on every matching name, so the
last declaration wins, contradicting the claim for binary buffers. -/
theorem c5_counterexample :
    idxOfB (asciiB "red") (headerOf c5BadBuf).order = some 3 ∧
    idxOfB (asciiB "r") (headerOf c5BadBuf).order = some 6 ∧
    (headerOf c5BadBuf).format = some (asciiB "binary_little_endian") ∧
    parsePly c5BadBuf = .ok ⟨1, [1, 2, 3], [8/51, 4/51, 2/17]⟩ ∧
    (8 / 51 : ℚ) ≠ 2 / 51 :=
  ⟨by decide, by decide, by decide, by decide!, by norm_num⟩

set_option maxHeartbeats 2000000 in
/-- C5 (amended): in the text encoding, with color decoding enabled, the
channel indices prefer the long-form names (`red`/`green`/`blue` win over
`r`/`g`/`b` whenever declared), and every decoded point's color channels
are read from the tokens at exactly those indices (scaled by 1/255). -/
theorem c5_amended_text_long_form (buf : List Nat) (ps : PointSet)
    (hok : parsePly buf = .ok ps)
    (hfmt : (headerOf buf).format = some (asciiB "ascii"))
    (hc : hasColorOf buf = true) :
    (idxOfB (asciiB "red") (headerOf buf).order ≠ none →
      rIndexOf buf = idxOfB (asciiB "red") (headerOf buf).order) ∧
    (idxOfB (asciiB "green") (headerOf buf).order ≠ none →
      gIndexOf buf = idxOfB (asciiB "green") (headerOf buf).order) ∧
    (idxOfB (asciiB "blue") (headerOf buf).order ≠ none →
      bIndexOf buf = idxOfB (asciiB "blue") (headerOf buf).order) ∧
    ∀ i, i < decodedCountOf buf →
      ps.colors[3 * i]? =
        some (jsParseFloat (((rowsOf buf).getD i []).getD ((rIndexOf buf).getD 0) []) / 255) ∧
      ps.colors[3 * i + 1]? =
        some (jsParseFloat (((rowsOf buf).getD i []).getD ((gIndexOf buf).getD 0) []) / 255) ∧
      ps.colors[3 * i + 2]? =
        some (jsParseFloat (((rowsOf buf).getD i []).getD ((bIndexOf buf).getD 0) []) / 255) := by
  refine ⟨rIndexOf_long buf, gIndexOf_long buf, bIndexOf_long buf, ?_⟩
  obtain ⟨n, hn, hnpos, hcnt, hxyz, fmt, hf, hbr⟩ := parsePly_ok_cases buf ps hok
  have hcount : ps.count = countOf buf := by
    rw [hcnt]; unfold countOf; rw [hn]; rfl
  intro i hi
  rcases hbr with ⟨ha, hpair⟩ | ⟨hble, hbin⟩
  · have hdec : decodedCountOf buf = filledOf buf := by
      unfold decodedCountOf
      rw [if_pos (by rw [hf, ha])]
    have hfil : filledOf buf = min (countOf buf) (rowsOf buf).length := rfl
    have hrows : i < (rowsOf buf).length := by
      rw [hdec, hfil] at hi; omega
    have hic : 0 + i < ps.count := by
      rw [hdec, hfil] at hi; rw [hcount]; omega
    have h2 : ps.colors = (fillRows ((xIndexOf buf).getD 0) ((yIndexOf buf).getD 0)
      ((zIndexOf buf).getD 0) ((rIndexOf buf).getD 0) ((gIndexOf buf).getD 0)
      ((bIndexOf buf).getD 0) (hasColorOf buf) ps.count (rowsOf buf) 0
      (List.replicate (ps.count * 3) 0) (List.replicate (ps.count * 3) 0)).2 :=
      congrArg Prod.snd hpair
    have hget := fillRows_get ((xIndexOf buf).getD 0) ((yIndexOf buf).getD 0)
      ((zIndexOf buf).getD 0) ((rIndexOf buf).getD 0) ((gIndexOf buf).getD 0)
      ((bIndexOf buf).getD 0) (hasColorOf buf) ps.count (rowsOf buf) 0
      (List.replicate (ps.count * 3) 0) (List.replicate (ps.count * 3) 0)
      (by rw [List.length_replicate]; omega) (by rw [List.length_replicate]; omega)
      i hrows hic
    rw [hc] at h2
    rw [h2]
    simp only [Nat.zero_add, hc, if_true] at hget
    exact ⟨hget.2.2.2.1, hget.2.2.2.2.1, hget.2.2.2.2.2⟩
  · exfalso
    rw [hf] at hfmt
    injection hfmt with hfmt
    rcases hble with hb1 | hb1 <;> rw [hb1] at hfmt <;> exact absurd hfmt (by decide)

set_option maxRecDepth 100000 in
set_option maxHeartbeats 2000000 in
/-- Witness for C5 (amended) at an ASCII buffer declaring both `red green
blue` and `r g b`: the red channel of the decoded point comes from the
token at the long-form `red` index. -/
theorem c5_witness :
    parsePly c5WitBuf = .ok ⟨1, [1, 2, 3], [2/51, 4/51, 2/17]⟩ ∧
    (headerOf c5WitBuf).format = some (asciiB "ascii") ∧
    hasColorOf c5WitBuf = true ∧
    rIndexOf c5WitBuf = idxOfB (asciiB "red") (headerOf c5WitBuf).order ∧
    (⟨1, [1, 2, 3], [2/51, 4/51, 2/17]⟩ : PointSet).colors[3 * 0]? =
      some (jsParseFloat (((rowsOf c5WitBuf).getD 0 []).getD ((rIndexOf c5WitBuf).getD 0) []) / 255) :=
  ⟨by decide!, by decide, by decide,
    (c5_amended_text_long_form c5WitBuf ⟨1, [1, 2, 3], [2/51, 4/51, 2/17]⟩
      (by decide!) (by decide) (by decide)).1 (by decide),
    ((c5_amended_text_long_form c5WitBuf ⟨1, [1, 2, 3], [2/51, 4/51, 2/17]⟩
      (by decide!) (by decide) (by decide)).2.2.2 0 (by decide)).1⟩

set_option maxRecDepth 100000 in
/-- C4 counterexample: a found header whose format token `weird` is
unsupported but whose vertex count is `-1`: the claim places this input in
its "fails with FormatError" cases (unsupported format token), yet the
decode fails with the RangeError of the `Float32Array(vertexCount * 3)`
allocation, reached before the unsupported-format throw. -/
theorem c4_counterexample :
    headerEndOf c4BadBuf = some 90 ∧
    (headerOf c4BadBuf).format = some (asciiB "weird") ∧
    asciiB "weird" ≠ asciiB "ascii" ∧
    asciiB "weird" ≠ asciiB "binary_little_endian" ∧
    asciiB "weird" ≠ asciiB "binary_big_endian" ∧
    parsePly c4BadBuf = .error .rangeError ∧
    isFormatError (parsePly c4BadBuf) = false :=
  ⟨by decide, by decide, by decide, by decide, by decide, by decide, by decide⟩

set_option maxHeartbeats 2000000 in
/-- C4 (amended): for every buffer whose header is found, the decode fails
with a FormatError exactly when the header has no usable `format`, the
vertex count is missing or zero, one of `x`/`y`/`z` is missing, or the
format token is unsupported with a nonnegative vertex count (with a
negative count the typed-array allocation raises a RangeError before the
format dispatch is reached). -/
theorem c4_amended_format_error_iff (buf : List Nat) (he : Nat)
    (hend : headerEndOf buf = some he) :
    isFormatError (parsePly buf) = true ↔
      ((headerOf buf).format = none ∨
       (headerOf buf).vcount = none ∨ (headerOf buf).vcount = some 0 ∨
       xIndexOf buf = none ∨ yIndexOf buf = none ∨ zIndexOf buf = none ∨
       ((headerOf buf).format ≠ some (asciiB "ascii") ∧
        (headerOf buf).format ≠ some (asciiB "binary_little_endian") ∧
        (headerOf buf).format ≠ some (asciiB "binary_big_endian") ∧
        ¬(headerOf buf).vcount.getD 0 < 0)) := by
  unfold parsePly
  rw [hend]
  simp only
  cases hf : (headerOf buf).format with
  | none => exact iff_of_true rfl (Or.inl rfl)
  | some fmt =>
    simp only
    by_cases hv : (headerOf buf).vcount = none ∨ (headerOf buf).vcount = some 0
    · rw [if_pos hv]
      rcases hv with h1 | h1
      · exact iff_of_true rfl (Or.inr (Or.inl h1))
      · exact iff_of_true rfl (Or.inr (Or.inr (Or.inl h1)))
    · rw [if_neg hv]
      by_cases hxyz : xIndexOf buf = none ∨ yIndexOf buf = none ∨ zIndexOf buf = none
      · rw [if_pos hxyz]
        rcases hxyz with h1 | h1 | h1
        · exact iff_of_true rfl (Or.inr (Or.inr (Or.inr (Or.inl h1))))
        · exact iff_of_true rfl (Or.inr (Or.inr (Or.inr (Or.inr (Or.inl h1)))))
        · exact iff_of_true rfl (Or.inr (Or.inr (Or.inr (Or.inr (Or.inr (Or.inl h1))))))
      · rw [if_neg hxyz]
        have hrhsneg : ¬(some fmt = none ∨
            (headerOf buf).vcount = none ∨ (headerOf buf).vcount = some 0 ∨
            xIndexOf buf = none ∨ yIndexOf buf = none ∨ zIndexOf buf = none ∨
            (some fmt ≠ some (asciiB "ascii") ∧
             some fmt ≠ some (asciiB "binary_little_endian") ∧
             some fmt ≠ some (asciiB "binary_big_endian") ∧
             ¬(headerOf buf).vcount.getD 0 < 0)) →
            (fmt = asciiB "ascii" ∨ fmt = asciiB "binary_little_endian" ∨
             fmt = asciiB "binary_big_endian" ∨ (headerOf buf).vcount.getD 0 < 0) := by
          intro hsupp
          by_contra hno
          push_neg at hno
          exact hsupp (Or.inr (Or.inr (Or.inr (Or.inr (Or.inr (Or.inr
            ⟨fun hcc => hno.1 (by injection hcc),
             fun hcc => hno.2.1 (by injection hcc),
             fun hcc => hno.2.2.1 (by injection hcc), Int.not_lt.mpr hno.2.2.2⟩))))))
        have hnotrhs : ∀ hq : ¬(fmt = asciiB "ascii" ∨ fmt = asciiB "binary_little_endian" ∨
            fmt = asciiB "binary_big_endian" ∨ (headerOf buf).vcount.getD 0 < 0) → False,
            ¬(some fmt = none ∨
            (headerOf buf).vcount = none ∨ (headerOf buf).vcount = some 0 ∨
            xIndexOf buf = none ∨ yIndexOf buf = none ∨ zIndexOf buf = none ∨
            (some fmt ≠ some (asciiB "ascii") ∧
             some fmt ≠ some (asciiB "binary_little_endian") ∧
             some fmt ≠ some (asciiB "binary_big_endian") ∧
             ¬(headerOf buf).vcount.getD 0 < 0)) := by
          intro hq hrhs
          rcases hrhs with h1 | h1 | h1 | h1 | h1 | h1 | ⟨h1, h2, h3, h4⟩
          · exact Option.noConfusion h1
          · exact hv (Or.inl h1)
          · exact hv (Or.inr h1)
          · exact hxyz (Or.inl h1)
          · exact hxyz (Or.inr (Or.inl h1))
          · exact hxyz (Or.inr (Or.inr h1))
          · exact hq (fun hd => by
              rcases hd with hd | hd | hd | hd
              · exact h1 (by rw [hd])
              · exact h2 (by rw [hd])
              · exact h3 (by rw [hd])
              · exact h4 hd)
        by_cases hneg : (headerOf buf).vcount.getD 0 < 0
        · rw [if_pos hneg]
          refine iff_of_false (fun hcc => Bool.noConfusion hcc) ?_
          intro hrhs
          rcases hrhs with h1 | h1 | h1 | h1 | h1 | h1 | ⟨h1, h2, h3, h4⟩
          · exact Option.noConfusion h1
          · exact hv (Or.inl h1)
          · exact hv (Or.inr h1)
          · exact hxyz (Or.inl h1)
          · exact hxyz (Or.inr (Or.inl h1))
          · exact hxyz (Or.inr (Or.inr h1))
          · exact h4 hneg
        · rw [if_neg hneg]
          by_cases ha : fmt = asciiB "ascii"
          · rw [if_pos ha]
            refine iff_of_false (fun hcc => Bool.noConfusion hcc) ?_
            exact hnotrhs (fun hq => hq (Or.inl ha))
          · rw [if_neg ha]
            by_cases hble : fmt = asciiB "binary_little_endian" ∨
                fmt = asciiB "binary_big_endian"
            · rw [if_pos hble]
              have hneg2 := hnotrhs (fun hq => hq (by
                rcases hble with hb1 | hb1
                · exact Or.inr (Or.inl hb1)
                · exact Or.inr (Or.inr (Or.inl hb1))))
              cases hb : binLoop (dataOf buf)
                  (decide (fmt = asciiB "binary_little_endian")) (hasColorOf buf)
                  (propsOf buf) (strideOf buf) 0 ((headerOf buf).vcount.getD 0).toNat
                  (List.replicate (((headerOf buf).vcount.getD 0).toNat * 3) 0)
                  (List.replicate (((headerOf buf).vcount.getD 0).toNat * 3) 0) with
              | none => exact iff_of_false (fun hcc => Bool.noConfusion hcc) hneg2
              | some res => exact iff_of_false (fun hcc => Bool.noConfusion hcc) hneg2
            · rw [if_neg hble]
              refine iff_of_true rfl (Or.inr (Or.inr (Or.inr (Or.inr (Or.inr (Or.inr
                ⟨?_, ?_, ?_, hneg⟩))))))
              · intro hcc; injection hcc with hcc; exact ha hcc
              · intro hcc; injection hcc with hcc; exact hble (Or.inl hcc)
              · intro hcc; injection hcc with hcc; exact hble (Or.inr hcc)

set_option maxRecDepth 100000 in
/-- Witness for C4 (amended) at a found header with no `format` line:
the decode fails with a FormatError. -/
theorem c4_witness :
    headerEndOf c4WitBuf = some 72 ∧
    isFormatError (parsePly c4WitBuf) = true ∧
    (headerOf c4WitBuf).format = none :=
  ⟨by decide,
    (c4_amended_format_error_iff c4WitBuf 72 (by decide)).mpr (Or.inl (by decide)),
    by decide⟩

set_option maxRecDepth 400000 in
/-- C1 counterexample: two 15-byte records all of whose bytes are `0x20`
(a legitimate float/color byte pattern) are swallowed entirely by the
data-offset scan, which skips every whitespace byte after `end_header`
within the 64 KiB window: the decode then runs out of data and fails with
a RangeError instead of returning the claimed two points. -/
theorem c1_counterexample :
    c1BadBuf = c1Header ++ List.replicate 30 32 ∧
    (∀ b ∈ List.replicate 30 32, b < 256) ∧
    parsePly c1BadBuf = .error .rangeError :=
  ⟨rfl, by decide, by decide⟩

set_option maxRecDepth 400000 in
set_option maxHeartbeats 4000000 in
/-- C1 (amended): for the concrete header of the claim followed by two
15-byte records (three little-endian floats then three color bytes each)
whose first byte is not one of the seven whitespace byte values the
data-offset scan strips, decoding returns `count = 2`, each position equal
to the decoded value of the corresponding little-endian float bytes, and
each color channel equal to the corresponding byte divided by 255. -/
theorem c1_amended_binary_decode
    (b0 b1 b2 b3 b4 b5 b6 b7 b8 b9 b10 b11 b12 b13 b14 : Nat)
    (c0 c1 c2 c3 c4 c5 c6 c7 c8 c9 c10 c11 c12 c13 c14 : Nat)
    (hws : wsByte b0 = false)
    (_hbytes : ∀ b ∈ [b0, b1, b2, b3, b4, b5, b6, b7, b8, b9, b10, b11, b12, b13, b14,
      c0, c1, c2, c3, c4, c5, c6, c7, c8, c9, c10, c11, c12, c13, c14], b < 256) :
    parsePly (c1Header ++ [b0, b1, b2, b3, b4, b5, b6, b7, b8, b9, b10, b11, b12, b13, b14,
        c0, c1, c2, c3, c4, c5, c6, c7, c8, c9, c10, c11, c12, c13, c14]) =
      .ok ⟨2,
        [f32FromBits (assembleLE [b0, b1, b2, b3]),
         f32FromBits (assembleLE [b4, b5, b6, b7]),
         f32FromBits (assembleLE [b8, b9, b10, b11]),
         f32FromBits (assembleLE [c0, c1, c2, c3]),
         f32FromBits (assembleLE [c4, c5, c6, c7]),
         f32FromBits (assembleLE [c8, c9, c10, c11])],
        [(b12 : ℚ) / 255, (b13 : ℚ) / 255, (b14 : ℚ) / 255,
         (c12 : ℚ) / 255, (c13 : ℚ) / 255, (c14 : ℚ) / 255]⟩ := by
  set recs : List Nat := [b0, b1, b2, b3, b4, b5, b6, b7, b8, b9, b10, b11, b12, b13, b14,
    c0, c1, c2, c3, c4, c5, c6, c7, c8, c9, c10, c11, c12, c13, c14] with hrecs
  have hend : headerEndOf (c1Header ++ recs) = some 164 := rfl
  have h1 : (List.take 65536 (c1Header ++ recs)).drop (headerLengthOf (c1Header ++ recs)) =
      10 :: recs := rfl
  have hds : dataStartOf (c1Header ++ recs) = 175 := by
    unfold dataStartOf
    rw [h1, hrecs, List.takeWhile_cons, List.takeWhile_cons, hws]
    simp
    rfl
  have hdata : dataOf (c1Header ++ recs) = recs := by
    unfold dataOf
    rw [hds, hrecs]
    rfl
  have hfm : (headerOf (c1Header ++ recs)).format =
      some (asciiB "binary_little_endian") := rfl
  have hvc : (headerOf (c1Header ++ recs)).vcount = some 2 := rfl
  have hxi : xIndexOf (c1Header ++ recs) = some 0 := rfl
  have hyi : yIndexOf (c1Header ++ recs) = some 1 := rfl
  have hzi : zIndexOf (c1Header ++ recs) = some 2 := rfl
  have hhc : hasColorOf (c1Header ++ recs) = true := rfl
  have hprops : propsOf (c1Header ++ recs) =
      [(asciiB "x", some (asciiB "float")), (asciiB "y", some (asciiB "float")),
       (asciiB "z", some (asciiB "float")), (asciiB "red", some (asciiB "uchar")),
       (asciiB "green", some (asciiB "uchar")), (asciiB "blue", some (asciiB "uchar"))] := rfl
  have hstr : strideOf (c1Header ++ recs) = 15 := rfl
  unfold parsePly
  rw [hend]
  simp only
  rw [hfm]
  simp only
  rw [hvc, hxi, hyi, hzi, hhc, hprops, hstr, hdata]
  rw [if_neg (by decide : ¬((some (2 : Int)) = none ∨ (some (2 : Int)) = some 0))]
  rw [if_neg (by decide : ¬((some (0 : Nat)) = none ∨ (some (1 : Nat)) = none ∨
    (some (2 : Nat)) = none))]
  rw [if_neg (by decide : ¬((some (2 : Int)).getD 0 < 0))]
  rw [if_neg (by decide : ¬(asciiB "binary_little_endian" = asciiB "ascii"))]
  rw [if_pos (Or.inl trivial :
    True ∨ asciiB "binary_little_endian" = asciiB "binary_big_endian")]
  rfl

set_option maxRecDepth 400000 in
/-- Witness for C1 (amended) at the records `(1,2,3,10,20,30)` and
`(-4,5,6,40,50,60)`. -/
theorem c1_witness :
    wsByte 0 = false ∧
    (∀ b ∈ ([0, 0, 128, 63, 0, 0, 0, 64, 0, 0, 64, 64, 10, 20, 30,
      0, 0, 128, 192, 0, 0, 160, 64, 0, 0, 192, 64, 40, 50, 60] : List Nat), b < 256) ∧
    parsePly (c1Header ++ [0, 0, 128, 63, 0, 0, 0, 64, 0, 0, 64, 64, 10, 20, 30,
        0, 0, 128, 192, 0, 0, 160, 64, 0, 0, 192, 64, 40, 50, 60]) =
      .ok ⟨2,
        [f32FromBits (assembleLE [0, 0, 128, 63]),
         f32FromBits (assembleLE [0, 0, 0, 64]),
         f32FromBits (assembleLE [0, 0, 64, 64]),
         f32FromBits (assembleLE [0, 0, 128, 192]),
         f32FromBits (assembleLE [0, 0, 160, 64]),
         f32FromBits (assembleLE [0, 0, 192, 64])],
        [((10 : Nat) : ℚ) / 255, ((20 : Nat) : ℚ) / 255, ((30 : Nat) : ℚ) / 255,
         ((40 : Nat) : ℚ) / 255, ((50 : Nat) : ℚ) / 255, ((60 : Nat) : ℚ) / 255]⟩ :=
  ⟨by decide, by decide,
    c1_amended_binary_decode 0 0 128 63 0 0 0 64 0 0 64 64 10 20 30
      0 0 128 192 0 0 160 64 0 0 192 64 40 50 60 (by decide) (by decide)⟩
